import Mathlib

/-!
# Verification of the talktown companionship relationship engine

A shallow embedding of `src/companionship.py`: the relationship-record
variants (`Kinship`, `Acquaintance`, `Friendship`, `Enmity`), their
constructors' side effects (history-chain linking, ledger overwrite,
mental-model bridge invocation) and `progress_relationship`, modelled as
pure state transformers over an explicit `World` state.  Real numbers of
the source are modelled as rationals (`ℚ`); persons are identified by
natural numbers and live in a fixed environment; records live in an
append-only arena indexed by position.
-/

/-- The five-trait personality profile read from the person model
(`owner.personality.*` / `subject.personality.*` in the source). -/
structure Personality where
  openness_to_experience : ℚ
  conscientiousness : ℚ
  extroversion : ℚ
  agreeableness : ℚ
  neuroticism : ℚ
deriving DecidableEq, Repr

/-- The attributes of a person that `companionship.py` reads:
personality, the modelled sex flags `male`/`female`, age, current
location, the attraction flags, and the extended-family set (modelled as
a list of person identifiers). -/
structure Person where
  personality : Personality
  male : Bool
  female : Bool
  age : ℚ
  location : Nat
  attracted_to_men : Bool
  attracted_to_women : Bool
  extended_family : List Nat
deriving DecidableEq, Repr

/-- The configuration parameters `companionship.py` reads from
`owner.game.config`.  The five spark multipliers are keyed by the
owner's sex key (`'m'` ↦ `true`, `'f'` ↦ `false`). -/
structure Config where
  owner_extroversion_boost_to_charge_multiplier : ℚ
  subject_agreeableness_boost_to_charge_multiplier : ℚ
  charge_intensity_reduction_due_to_sex_difference : ℚ
  openness_boost_to_spark_multiplier : Bool → ℚ
  conscientiousness_boost_to_spark_multiplier : Bool → ℚ
  extroversion_boost_to_spark_multiplier : Bool → ℚ
  agreeableness_boost_to_spark_multiplier : Bool → ℚ
  neuroticism_boost_to_spark_multiplier : Bool → ℚ
  spark_decay_rate : ℚ
  charge_threshold_friendship : ℚ
  charge_threshold_enmity : ℚ
  function_to_determine_how_age_difference_reduces_charge_intensity : ℚ → ℚ → ℚ

/-- The ambient simulation state the engine reads: the configuration
(`owner.game.config`), the population (person id ↦ person) and the
current date (`owner.game.date`). -/
structure Env where
  config : Config
  people : Nat → Person
  date : Nat

/-- The variant-specific payload of a relationship record.  The source
uses four independent classes whose instances carry different
attributes; the payload records exactly the numeric attributes each
variant has (`Kinship`: the family-relationship label; `Acquaintance`:
compatibility, charge increment, charge, spark increment, spark;
`Friendship`/`Enmity`: charge increment and charge only). -/
inductive Payload where
  | kinship (relationship : String)
  | acquaintance (compatibility charge_increment charge spark_increment spark : ℚ)
  | friendship (charge_increment charge : ℚ)
  | enmity (charge_increment charge : ℚ)
deriving DecidableEq, Repr

namespace Payload

/-- The `type` string tag every variant sets in `__init__`. -/
def type : Payload → String
  | .kinship _ => "kinship"
  | .acquaintance _ _ _ _ _ => "acquaintance"
  | .friendship _ _ => "friendship"
  | .enmity _ _ => "enmity"

/-- The `charge_increment` attribute, when the variant has one. -/
def charge_increment? : Payload → Option ℚ
  | .kinship _ => none
  | .acquaintance _ ci _ _ _ => some ci
  | .friendship ci _ => some ci
  | .enmity ci _ => some ci

/-- The `charge` attribute, when the variant has one. -/
def charge? : Payload → Option ℚ
  | .kinship _ => none
  | .acquaintance _ _ c _ _ => some c
  | .friendship _ c => some c
  | .enmity _ c => some c

/-- The `spark_increment` attribute, when the variant has one. -/
def spark_increment? : Payload → Option ℚ
  | .acquaintance _ _ _ si _ => some si
  | _ => none

/-- The `spark` attribute, when the variant has one. -/
def spark? : Payload → Option ℚ
  | .acquaintance _ _ _ _ s => some s
  | _ => none

end Payload

/-- A relationship record: the fields shared by all four variants in
the source (`owner`, `subject`, the `preceded_by`/`succeeded_by` chain
links, `where_they_met`/`when_they_met`) plus the variant payload.
Persons are identified by `Nat`; chain links are arena indices. -/
structure Rec where
  owner : Nat
  subject : Nat
  preceded_by : Option Nat
  succeeded_by : Option Nat
  where_they_met : Option Nat
  when_they_met : Option Nat
  payload : Payload
deriving DecidableEq, Repr

/-- The mutable state the engine acts on: the arena of all records ever
constructed (index = identity), every person's relationship ledger
(`owner.relationships[subject]`, modelled as one map keyed by the
(owner, subject) pair), and the log of mental-model-bridge invocations. -/
structure World where
  recs : List Rec
  ledger : Nat × Nat → Option Nat
  observations : List (Nat × Nat)

/-- The empty initial state: no records, no ledger entries. -/
def World.empty : World :=
  { recs := [], ledger := fun _ => none, observations := [] }

/-- Overwriting one ledger entry (`self.owner.relationships[self.subject] = self`). -/
def updateLedger (l : Nat × Nat → Option Nat) (k : Nat × Nat) (v : Nat) :
    Nat × Nat → Option Nat :=
  fun k2 => if k2 = k then some v else l k2

/-- Replace record `i` by `f` applied to it (attribute mutation on an
existing object); out-of-range indices leave the state unchanged. -/
def World.modifyRec (w : World) (i : Nat) (f : Rec → Rec) : World :=
  match w.recs[i]? with
  | some r => { w with recs := w.recs.set i (f r) }
  | none => w

/-- Modelled from the spec: the MentalModelBridge (the `belief` module,
`Observation` / `PersonMentalModel` / `build_up`) is external to the
repository sources; each invocation of
`Acquaintance.form_or_build_up_mental_model` — which creates a model of
the subject if the owner has none, else folds a fresh observation into
it — is recorded as one observation event `(owner, subject)`. -/
def form_or_build_up_mental_model (w : World) (owner subject : Nat) : World :=
  { w with observations := w.observations ++ [(owner, subject)] }

namespace Acquaintance

/-- `Acquaintance._init_get_compatibility`: the summed absolute
difference in openness, extroversion and agreeableness, normalized from
its natural 0–6 scale to the −1..1 compatibility scale. -/
def init_get_compatibility (owner subject : Person) : ℚ :=
  let diff :=
    |owner.personality.openness_to_experience - subject.personality.openness_to_experience| +
    |owner.personality.extroversion - subject.personality.extroversion| +
    |owner.personality.agreeableness - subject.personality.agreeableness|
  let normalized_diff := (3 - diff) / 3
  normalized_diff

/-- `Acquaintance._init_determine_charge_increment`: compatibility plus
the owner's extroversion and the subject's agreeableness, each scaled
by its configured multiplier; reduced by the configured factor when the
two differ in the modelled sex attribute. -/
def init_determine_charge_increment (config : Config) (owner subject : Person)
    (compatibility : ℚ) : ℚ :=
  let charge_increment :=
    compatibility +
    owner.personality.extroversion * config.owner_extroversion_boost_to_charge_multiplier +
    subject.personality.agreeableness * config.subject_agreeableness_boost_to_charge_multiplier
  if owner.male ≠ subject.male then
    charge_increment * config.charge_intensity_reduction_due_to_sex_difference
  else
    charge_increment

/-- `Acquaintance._affect_initial_spark_increment_by_own_personality`:
five trait values, each scaled by the spark multiplier keyed by the
owner's sex key.  As in the source, every trait value is read from the
subject's personality. -/
def affect_initial_spark_increment_by_own_personality (config : Config)
    (owner subject : Person) : ℚ :=
  let sex_key := owner.male
  subject.personality.openness_to_experience * config.openness_boost_to_spark_multiplier sex_key +
  subject.personality.conscientiousness * config.conscientiousness_boost_to_spark_multiplier sex_key +
  subject.personality.extroversion * config.extroversion_boost_to_spark_multiplier sex_key +
  subject.personality.agreeableness * config.agreeableness_boost_to_spark_multiplier sex_key +
  subject.personality.neuroticism * config.neuroticism_boost_to_spark_multiplier sex_key

/-- `Acquaintance._affect_initial_spark_increment_by_acquaintance_personality`:
five trait values of the subject's personality, each scaled by the
spark multiplier keyed by the owner's sex key. -/
def affect_initial_spark_increment_by_acquaintance_personality (config : Config)
    (owner subject : Person) : ℚ :=
  let sex_key := owner.male
  subject.personality.openness_to_experience * config.openness_boost_to_spark_multiplier sex_key +
  subject.personality.conscientiousness * config.conscientiousness_boost_to_spark_multiplier sex_key +
  subject.personality.extroversion * config.extroversion_boost_to_spark_multiplier sex_key +
  subject.personality.agreeableness * config.agreeableness_boost_to_spark_multiplier sex_key +
  subject.personality.neuroticism * config.neuroticism_boost_to_spark_multiplier sex_key

/-- `Acquaintance._init_determine_initial_spark_increment`: zero when
the subject is in the owner's extended family or is of a sex the owner
is not attracted to; otherwise the sum of the two personality-affect
computations.  `subjectId` is the subject's identity, used for the
extended-family membership test (`self.subject in self.owner.extended_family`). -/
def init_determine_initial_spark_increment (config : Config) (owner subject : Person)
    (subjectId : Nat) : ℚ :=
  if subjectId ∈ owner.extended_family then 0
  else if subject.male && !owner.attracted_to_men then 0
  else if subject.female && !owner.attracted_to_women then 0
  else
    affect_initial_spark_increment_by_own_personality config owner subject +
    affect_initial_spark_increment_by_acquaintance_personality config owner subject

/-- `Acquaintance.__init__`: link `preceded_by.succeeded_by` to the new
record when a predecessor is given, record the meeting place and time,
overwrite the owner's ledger entry for the subject, compute
compatibility, the charge increment (charge starts at the increment),
the initial spark increment (spark starts at the increment), and invoke
the mental-model bridge. -/
def construct (env : Env) (w : World) (owner subject : Nat)
    (preceded_by : Option Nat) : World :=
  let o := env.people owner
  let s := env.people subject
  let n := w.recs.length
  let recs1 :=
    match preceded_by with
    | some p =>
      match w.recs[p]? with
      | some pr => w.recs.set p { pr with succeeded_by := some n }
      | none => w.recs
    | none => w.recs
  let compatibility := init_get_compatibility o s
  let charge_increment := init_determine_charge_increment env.config o s compatibility
  let spark_increment := init_determine_initial_spark_increment env.config o s subject
  let newRec : Rec :=
    { owner := owner, subject := subject
      preceded_by := preceded_by, succeeded_by := none
      where_they_met := some o.location, when_they_met := some env.date
      payload := .acquaintance compatibility charge_increment charge_increment
        spark_increment spark_increment }
  let w1 : World :=
    { recs := recs1 ++ [newRec]
      ledger := updateLedger w.ledger (owner, subject) n
      observations := w.observations }
  form_or_build_up_mental_model w1 owner subject

end Acquaintance

namespace Kinship

/-- `Kinship.__init__`: a pure precursor record carrying only the
family-relationship label; `where_they_met`/`when_they_met` are null;
overwrites the owner's ledger entry for the subject. -/
def construct (w : World) (owner subject : Nat) (relationship : String) : World :=
  let n := w.recs.length
  let newRec : Rec :=
    { owner := owner, subject := subject
      preceded_by := none, succeeded_by := none
      where_they_met := none, when_they_met := none
      payload := .kinship relationship }
  { recs := w.recs ++ [newRec]
    ledger := updateLedger w.ledger (owner, subject) n
    observations := w.observations }

end Kinship

namespace Friendship

/-- `Friendship.__init__`: `self.preceded_by.succeeded_by = self` is an
unconditional attribute access, so a null predecessor raises (modelled
as `none`); the new record inherits `where/when_they_met` and copies
`charge_increment` and `charge` from the predecessor (which must carry
them), then overwrites the owner's ledger entry for the subject. -/
def construct (w : World) (owner subject : Nat) (preceded_by : Option Nat) :
    Option World :=
  match preceded_by with
  | none => none
  | some p =>
    match w.recs[p]? with
    | none => none
    | some pr =>
      match pr.payload.charge_increment?, pr.payload.charge? with
      | some ci, some c =>
        let n := w.recs.length
        let recs1 := w.recs.set p { pr with succeeded_by := some n }
        let newRec : Rec :=
          { owner := owner, subject := subject
            preceded_by := some p, succeeded_by := none
            where_they_met := pr.where_they_met, when_they_met := pr.when_they_met
            payload := .friendship ci c }
        some { recs := recs1 ++ [newRec]
               ledger := updateLedger w.ledger (owner, subject) n
               observations := w.observations }
      | _, _ => none

end Friendship

namespace Enmity

/-- `Enmity.__init__`: identical side effects to `Friendship.__init__`
with the enmity payload: mandatory predecessor, inherited meeting data,
verbatim copy of `charge_increment` and `charge`, ledger overwrite. -/
def construct (w : World) (owner subject : Nat) (preceded_by : Option Nat) :
    Option World :=
  match preceded_by with
  | none => none
  | some p =>
    match w.recs[p]? with
    | none => none
    | some pr =>
      match pr.payload.charge_increment?, pr.payload.charge? with
      | some ci, some c =>
        let n := w.recs.length
        let recs1 := w.recs.set p { pr with succeeded_by := some n }
        let newRec : Rec :=
          { owner := owner, subject := subject
            preceded_by := some p, succeeded_by := none
            where_they_met := pr.where_they_met, when_they_met := pr.when_they_met
            payload := .enmity ci c }
        some { recs := recs1 ++ [newRec]
               ledger := updateLedger w.ledger (owner, subject) n
               observations := w.observations }
      | _, _ => none

end Enmity

namespace Acquaintance

/-- `Acquaintance.progress_relationship`: add
`charge_increment · age_difference_effect_on_charge_increment` to the
charge; if the updated charge exceeds the friendship threshold
construct a `Friendship` with this record as predecessor, else if it is
below the enmity threshold construct an `Enmity`; then decay the spark
increment by the configured rate, add
`spark_increment · age_difference_effect_on_spark_increment` to the
spark, and invoke the mental-model bridge again.  Both age-difference
effects apply the configured function to the owner's and subject's
current ages.  All mutations of `self` target record `i`, also after a
successor has been constructed. -/
def progress_relationship (env : Env) (w : World) (i : Nat) : World :=
  match w.recs[i]? with
  | none => w
  | some r =>
    match r.payload with
    | .acquaintance compatibility charge_increment charge spark_increment spark =>
      let eff := env.config.function_to_determine_how_age_difference_reduces_charge_intensity
        (env.people r.owner).age (env.people r.subject).age
      let charge1 := charge + charge_increment * eff
      let p1 : Payload :=
        .acquaintance compatibility charge_increment charge1 spark_increment spark
      let r1 : Rec := { r with payload := p1 }
      let w1 : World := { w with recs := w.recs.set i r1 }
      let w2 :=
        if charge1 > env.config.charge_threshold_friendship then
          (Friendship.construct w1 r.owner r.subject (some i)).getD w1
        else if charge1 < env.config.charge_threshold_enmity then
          (Enmity.construct w1 r.owner r.subject (some i)).getD w1
        else w1
      let spark_increment1 := spark_increment * env.config.spark_decay_rate
      let spark1 := spark + spark_increment1 * eff
      let p2 : Payload :=
        .acquaintance compatibility charge_increment charge1 spark_increment1 spark1
      let w3 := w2.modifyRec i fun r2 => { r2 with payload := p2 }
      form_or_build_up_mental_model w3 r.owner r.subject
    | _ => w

end Acquaintance

namespace Friendship

/-- `Friendship.progress_relationship`: add the raw `charge_increment`
to the charge (no age-difference factor), then apply the same threshold
dispatch as the other variants; spark and the mental model are not
touched. -/
def progress_relationship (env : Env) (w : World) (i : Nat) : World :=
  match w.recs[i]? with
  | none => w
  | some r =>
    match r.payload with
    | .friendship charge_increment charge =>
      let charge1 := charge + charge_increment
      let r1 : Rec := { r with payload := .friendship charge_increment charge1 }
      let w1 : World := { w with recs := w.recs.set i r1 }
      if charge1 > env.config.charge_threshold_friendship then
        (Friendship.construct w1 r.owner r.subject (some i)).getD w1
      else if charge1 < env.config.charge_threshold_enmity then
        (Enmity.construct w1 r.owner r.subject (some i)).getD w1
      else w1
    | _ => w

end Friendship

namespace Enmity

/-- `Enmity.progress_relationship`: add the raw `charge_increment` to
the charge (no age-difference factor), then apply the same threshold
dispatch as the other variants; spark and the mental model are not
touched. -/
def progress_relationship (env : Env) (w : World) (i : Nat) : World :=
  match w.recs[i]? with
  | none => w
  | some r =>
    match r.payload with
    | .enmity charge_increment charge =>
      let charge1 := charge + charge_increment
      let r1 : Rec := { r with payload := .enmity charge_increment charge1 }
      let w1 : World := { w with recs := w.recs.set i r1 }
      if charge1 > env.config.charge_threshold_friendship then
        (Friendship.construct w1 r.owner r.subject (some i)).getD w1
      else if charge1 < env.config.charge_threshold_enmity then
        (Enmity.construct w1 r.owner r.subject (some i)).getD w1
      else w1
    | _ => w

end Enmity

/-- Dispatch of `progress_relationship` on the current record's
variant.  `Kinship` exposes no `progress_relationship`, so the driver
never invokes it there (modelled as the identity). -/
def progress_relationship (env : Env) (w : World) (i : Nat) : World :=
  match w.recs[i]? with
  | none => w
  | some r =>
    match r.payload with
    | .kinship _ => w
    | .acquaintance _ _ _ _ _ => Acquaintance.progress_relationship env w i
    | .friendship _ _ => Friendship.progress_relationship env w i
    | .enmity _ _ => Enmity.progress_relationship env w i

/-! ## Concrete fixtures used to evaluate the model on explicit inputs -/

/-- A concrete person: male, attracted to women, no family. -/
def personA : Person :=
  { personality := ⟨1/2, 0, 1/2, 1/2, 0⟩
    male := true, female := false
    age := 30, location := 3
    attracted_to_men := false, attracted_to_women := true
    extended_family := [] }

/-- A concrete person: female, attracted to men, no family. -/
def personB : Person :=
  { personality := ⟨1/2, 1, 1/2, 1/2, 1⟩
    male := false, female := true
    age := 30, location := 4
    attracted_to_men := true, attracted_to_women := false
    extended_family := [] }

/-- A concrete configuration (age-difference effect constantly 1). -/
def config0 : Config :=
  { owner_extroversion_boost_to_charge_multiplier := 1/4
    subject_agreeableness_boost_to_charge_multiplier := 1/2
    charge_intensity_reduction_due_to_sex_difference := 1/2
    openness_boost_to_spark_multiplier := fun b => if b then 1 else 2
    conscientiousness_boost_to_spark_multiplier := fun b => if b then 1/2 else 1
    extroversion_boost_to_spark_multiplier := fun b => if b then 1 else 1/2
    agreeableness_boost_to_spark_multiplier := fun b => if b then 2 else 1
    neuroticism_boost_to_spark_multiplier := fun b => if b then -1 else 1
    spark_decay_rate := 9/10
    charge_threshold_friendship := 5
    charge_threshold_enmity := -5
    function_to_determine_how_age_difference_reduces_charge_intensity := fun _ _ => 1 }

/-- A concrete environment over `config0` with two people. -/
def env0 : Env :=
  { config := config0
    people := fun n => if n = 0 then personA else personB
    date := 7 }

/-- A concrete person: male, of a sex `personA` is not attracted to. -/
def personC : Person :=
  { personality := ⟨1/2, 1, 1/2, 1/2, 1⟩
    male := true, female := false
    age := 40, location := 5
    attracted_to_men := true, attracted_to_women := false
    extended_family := [] }

/-- A concrete environment pairing `personA` with `personC`. -/
def env1 : Env :=
  { config := config0
    people := fun n => if n = 0 then personA else personC
    date := 9 }

/-- A concrete world holding one `Acquaintance` record for the pair
(0, 1) over `env0`. -/
def world1 : World := Acquaintance.construct env0 World.empty 0 1 none

/-- `config0` with an age-difference effect of 1/2 instead of 1. -/
def configHalf : Config :=
  { config0 with
    function_to_determine_how_age_difference_reduces_charge_intensity := fun _ _ => 1/2 }

/-- `env0` with the halved age-difference effect. -/
def envHalf : Env :=
  { config := configHalf
    people := fun n => if n = 0 then personA else personB
    date := 7 }

/-- A concrete `Enmity` record with charge increment 2 and charge 0. -/
def enmityRec : Rec :=
  { owner := 0, subject := 1
    preceded_by := none, succeeded_by := none
    where_they_met := some 3, when_they_met := some 7
    payload := .enmity 2 0 }

/-- A world holding only `enmityRec`. -/
def worldE : World :=
  { recs := [enmityRec]
    ledger := fun k => if k = (0, 1) then some 0 else none
    observations := [] }

/-- A concrete `Acquaintance` record with charge 4.0 and charge
increment 1.5 (and spark increment 1, spark 1). -/
def acqRec45 : Rec :=
  { owner := 0, subject := 1
    preceded_by := none, succeeded_by := none
    where_they_met := some 3, when_they_met := some 7
    payload := .acquaintance 1 (3/2) 4 1 1 }

/-- A world holding only `acqRec45`. -/
def world45 : World :=
  { recs := [acqRec45]
    ledger := fun k => if k = (0, 1) then some 0 else none
    observations := [] }

/-- A concrete `Acquaintance` record with charge 4.0 and charge
increment -2.0. -/
def acqRecNeg : Rec :=
  { owner := 0, subject := 1
    preceded_by := none, succeeded_by := none
    where_they_met := some 3, when_they_met := some 7
    payload := .acquaintance 1 (-2) 4 1 1 }

/-- A world holding only `acqRecNeg`. -/
def worldNeg : World :=
  { recs := [acqRecNeg]
    ledger := fun k => if k = (0, 1) then some 0 else none
    observations := [] }

/-- A concrete `Acquaintance` record that already carries a non-null
successor link. -/
def recWithSuccessor : Rec :=
  { owner := 0, subject := 1
    preceded_by := none, succeeded_by := some 1
    where_they_met := some 3, when_they_met := some 7
    payload := .acquaintance 1 1 1 1 1 }

/-- A world whose record 0 already has a successor (record 1). -/
def worldS : World :=
  { recs := [recWithSuccessor, enmityRec]
    ledger := fun k => if k = (0, 1) then some 1 else none
    observations := [] }

/-- Modelled from the spec: the external driver (the simulation's
agent-update loop, outside this repository's sources) performs exactly
these operations — it assigns a `Kinship` to a pair with no current
record, constructs an `Acquaintance` the first time two non-kin people
are co-located (passing the pair's `Kinship` as predecessor when one is
the current record), and calls `progress_relationship` only on the
ledger's current record for a pair (never on a `Kinship`, which exposes
no such method). -/
inductive Step (env : Env) : World → World → Prop where
  | kinship (w : World) (o s : Nat) (rel : String)
      (h : w.ledger (o, s) = none) :
      Step env w (Kinship.construct w o s rel)
  | meet (w : World) (o s : Nat)
      (h : w.ledger (o, s) = none) :
      Step env w (Acquaintance.construct env w o s none)
  | meetKin (w : World) (o s k : Nat) (rel : String) (r : Rec)
      (h : w.ledger (o, s) = some k) (hr : w.recs[k]? = some r)
      (hk : r.payload = .kinship rel) :
      Step env w (Acquaintance.construct env w o s (some k))
  | progress (w : World) (o s i : Nat) (r : Rec)
      (h : w.ledger (o, s) = some i) (hr : w.recs[i]? = some r)
      (hnk : ∀ rel, r.payload ≠ .kinship rel) :
      Step env w (progress_relationship env w i)

/-- The worlds reachable from the empty state by driver operations. -/
inductive Reachable (env : Env) : World → Prop where
  | init : Reachable env World.empty
  | step (w w2 : World) (hw : Reachable env w) (hs : Step env w w2) :
      Reachable env w2

/-- A world reached by assigning a `Kinship` to the pair (0, 1). -/
def worldK : World := Kinship.construct World.empty 0 1 "mother"

/-- `worldK` after the pair first meets: the `Kinship` is superseded by
an `Acquaintance`. -/
def worldKA : World := Acquaintance.construct env0 worldK 0 1 (some 0)

/-- Every ledger entry points to an in-range record for its own pair
whose `succeeded_by` is null (the entry is the pair's active record). -/
def ledgerInv (w : World) : Prop :=
  ∀ p i, w.ledger p = some i →
    ∃ r, w.recs[i]? = some r ∧ r.owner = p.1 ∧ r.subject = p.2 ∧
      r.succeeded_by = none

/-- Chain integrity: every record's successor names it back via
`preceded_by`. -/
def chainInv (w : World) : Prop :=
  ∀ (i : Nat) (r : Rec) (j : Nat), w.recs[i]? = some r → r.succeeded_by = some j →
    ∃ rj, w.recs[j]? = some rj ∧ rj.preceded_by = some i

/-- Successor links are stable from `w` to `w2`: a record whose
`succeeded_by` is already non-null keeps exactly that value, so
`succeeded_by` is assigned at most once across a record's lifetime. -/
def succStable (w w2 : World) : Prop :=
  ∀ (i : Nat) (r : Rec) (j : Nat), w.recs[i]? = some r → r.succeeded_by = some j →
    ∃ r2, w2.recs[i]? = some r2 ∧ r2.succeeded_by = some j

/-- The state produced by a successful `Friendship`/`Enmity`
construction from predecessor index `p` holding record `pr`: the
predecessor's `succeeded_by` is linked to the new index, the new record
(with payload `pl`) is appended, and the ledger entry is overwritten. -/
def successorWorld (w : World) (o s p : Nat) (pr : Rec) (pl : Payload) : World :=
  { recs := w.recs.set p { pr with succeeded_by := some w.recs.length } ++
      [{ owner := o, subject := s
         preceded_by := some p, succeeded_by := none
         where_they_met := pr.where_they_met, when_they_met := pr.when_they_met
         payload := pl }]
    ledger := updateLedger w.ledger (o, s) w.recs.length
    observations := w.observations }

/-- The state after the charge-update step of `progress_relationship`:
record `i` (holding `r`) gets payload `pl`; nothing else changes. -/
def chargedWorld (w : World) (i : Nat) (r : Rec) (pl : Payload) : World :=
  { w with recs := w.recs.set i ({ r with payload := pl }) }

/-- A record with replaced payload. -/
def recWithPayload (r : Rec) (pl : Payload) : Rec :=
  { r with payload := pl }

/-- A record with replaced payload whose `succeeded_by` has been linked
to index `n`. -/
def recWithSucc (r : Rec) (n : Nat) (pl : Payload) : Rec :=
  { r with succeeded_by := some n, payload := pl }

/-- The successor record a `Friendship`/`Enmity` constructor appends
when preceded by record `pr` at index `p`. -/
def newSuccessorRec (o s p : Nat) (pr : Rec) (pl : Payload) : Rec :=
  { owner := o, subject := s
    preceded_by := some p, succeeded_by := none
    where_they_met := pr.where_they_met, when_they_met := pr.when_they_met
    payload := pl }

/-- The state after a threshold-crossing `progress_relationship` call on
record `i`: record `i` is replaced by `rF` (charge/spark updated and
`succeeded_by` linked), the successor `newR` is appended, the ledger
entry for (o, s) is overwritten with the new index, and the observation
log becomes `obs`. -/
def transitionWorld (w : World) (i : Nat) (rF newR : Rec) (o s : Nat)
    (obs : List (Nat × Nat)) : World :=
  { recs := w.recs.set i rF ++ [newR]
    ledger := updateLedger w.ledger (o, s) w.recs.length
    observations := obs }

/-! ## Helper lemmas about the constructors -/

/-- A successful `Friendship` construction produces exactly the
successor state. -/
theorem friendship_construct_eq (w : World) (o s p : Nat) (pr : Rec) (ci c : ℚ)
    (hp : w.recs[p]? = some pr) (hci : pr.payload.charge_increment? = some ci)
    (hc : pr.payload.charge? = some c) :
    Friendship.construct w o s (some p) =
      some (successorWorld w o s p pr (.friendship ci c)) := by
  simp only [Friendship.construct, hp, hci, hc, successorWorld]

/-- A successful `Enmity` construction produces exactly the successor
state. -/
theorem enmity_construct_eq (w : World) (o s p : Nat) (pr : Rec) (ci c : ℚ)
    (hp : w.recs[p]? = some pr) (hci : pr.payload.charge_increment? = some ci)
    (hc : pr.payload.charge? = some c) :
    Enmity.construct w o s (some p) =
      some (successorWorld w o s p pr (.enmity ci c)) := by
  simp only [Enmity.construct, hp, hci, hc, successorWorld]

/-- The successor state's record count. -/
theorem successorWorld_length (w : World) (o s p : Nat) (pr : Rec) (pl : Payload) :
    (successorWorld w o s p pr pl).recs.length = w.recs.length + 1 := by
  simp [successorWorld]

/-- The record appended by a successor construction, at index
`w.recs.length`. -/
theorem successorWorld_new_rec (w : World) (o s p : Nat) (pr : Rec) (pl : Payload) :
    (successorWorld w o s p pr pl).recs[w.recs.length]? =
      some { owner := o, subject := s
             preceded_by := some p, succeeded_by := none
             where_they_met := pr.where_they_met, when_they_met := pr.when_they_met
             payload := pl } := by
  unfold successorWorld
  rw [List.getElem?_append_right (by simp)]
  simp

/-- The record at the predecessor index after a successor construction,
when the predecessor index is in range. -/
theorem successorWorld_pred_rec (w : World) (o s p : Nat) (pr : Rec) (pl : Payload)
    (hp : p < w.recs.length) :
    (successorWorld w o s p pr pl).recs[p]? =
      some { pr with succeeded_by := some w.recs.length } := by
  unfold successorWorld
  rw [List.getElem?_append_left (by simpa using hp)]
  rw [List.getElem?_set_eq_of_lt _ hp]

/-- Records other than the predecessor and the new one are untouched by
a successor construction. -/
theorem successorWorld_other_rec (w : World) (o s p : Nat) (pr : Rec) (pl : Payload)
    (j : Nat) (hj : j ≠ p) (hlt : j < w.recs.length) :
    (successorWorld w o s p pr pl).recs[j]? = w.recs[j]? := by
  unfold successorWorld
  rw [List.getElem?_append_left (by simpa using hlt)]
  rw [List.getElem?_set_ne (fun h => hj h.symm)]

/-- Constructing a `Kinship` overwrites the ledger entry with the new
record's index. -/
theorem kinship_construct_ledger (w : World) (o s : Nat) (rel : String) :
    (Kinship.construct w o s rel).ledger = updateLedger w.ledger (o, s) w.recs.length := rfl

/-- The record appended by `Kinship.construct`, at index `w.recs.length`. -/
theorem kinship_construct_new_rec (w : World) (o s : Nat) (rel : String) :
    (Kinship.construct w o s rel).recs[w.recs.length]? =
      some { owner := o, subject := s
             preceded_by := none, succeeded_by := none
             where_they_met := none, when_they_met := none
             payload := .kinship rel } := by
  simp [Kinship.construct, List.getElem?_concat_length]

/-- Constructing an `Acquaintance` leaves the ledger overwritten at the
(owner, subject) key with the new record's index. -/
theorem Acquaintance.construct_ledger (env : Env) (w : World) (o s : Nat)
    (pre : Option Nat) :
    (Acquaintance.construct env w o s pre).ledger =
      updateLedger w.ledger (o, s) w.recs.length := rfl

/-- Constructing an `Acquaintance` appends exactly one record. -/
theorem Acquaintance.construct_length (env : Env) (w : World) (o s : Nat)
    (pre : Option Nat) :
    (Acquaintance.construct env w o s pre).recs.length = w.recs.length + 1 := by
  cases pre with
  | none => simp [Acquaintance.construct, form_or_build_up_mental_model]
  | some p =>
    cases hp : w.recs[p]? with
    | none => simp [Acquaintance.construct, form_or_build_up_mental_model, hp]
    | some pr => simp [Acquaintance.construct, form_or_build_up_mental_model, hp]

/-- The record appended by `Acquaintance.construct`, at index
`w.recs.length`. -/
theorem Acquaintance.construct_new_rec (env : Env) (w : World) (o s : Nat)
    (pre : Option Nat) :
    (Acquaintance.construct env w o s pre).recs[w.recs.length]? =
      some { owner := o, subject := s
             preceded_by := pre, succeeded_by := none
             where_they_met := some (env.people o).location
             when_they_met := some env.date
             payload := .acquaintance
               (init_get_compatibility (env.people o) (env.people s))
               (init_determine_charge_increment env.config (env.people o) (env.people s)
                 (init_get_compatibility (env.people o) (env.people s)))
               (init_determine_charge_increment env.config (env.people o) (env.people s)
                 (init_get_compatibility (env.people o) (env.people s)))
               (init_determine_initial_spark_increment env.config (env.people o)
                 (env.people s) s)
               (init_determine_initial_spark_increment env.config (env.people o)
                 (env.people s) s) } := by
  cases pre with
  | none =>
    simp [Acquaintance.construct, form_or_build_up_mental_model,
      List.getElem?_concat_length]
  | some p =>
    cases hp : w.recs[p]? with
    | none =>
      simp [Acquaintance.construct, form_or_build_up_mental_model, hp,
        List.getElem?_concat_length]
    | some pr =>
      simp only [Acquaintance.construct, form_or_build_up_mental_model, hp]
      rw [List.getElem?_append_right (by simp)]
      simp

/-! ## Claim theorems -/

/-- C3: Ledger currency — after constructing any record (Kinship,
Acquaintance, Friendship, or Enmity) for a pair (owner, subject), the
owner's ledger entry for the subject is exactly the newly constructed
record, regardless of what the entry held before; every constructor
unconditionally overwrites the entry. -/
theorem C3_ledger_currency :
    (∀ (w : World) (o s : Nat) (rel : String),
      (Kinship.construct w o s rel).ledger (o, s) = some w.recs.length ∧
      ∃ r, (Kinship.construct w o s rel).recs[w.recs.length]? = some r ∧
        r.owner = o ∧ r.subject = s ∧ r.payload.type = "kinship") ∧
    (∀ (env : Env) (w : World) (o s : Nat) (pre : Option Nat),
      (Acquaintance.construct env w o s pre).ledger (o, s) = some w.recs.length ∧
      ∃ r, (Acquaintance.construct env w o s pre).recs[w.recs.length]? = some r ∧
        r.owner = o ∧ r.subject = s ∧ r.payload.type = "acquaintance") ∧
    (∀ (w : World) (o s p : Nat) (pr : Rec) (ci c : ℚ),
      w.recs[p]? = some pr → pr.payload.charge_increment? = some ci →
      pr.payload.charge? = some c →
      ∃ w2, Friendship.construct w o s (some p) = some w2 ∧
        w2.ledger (o, s) = some w.recs.length ∧
        ∃ r, w2.recs[w.recs.length]? = some r ∧
          r.owner = o ∧ r.subject = s ∧ r.payload.type = "friendship") ∧
    (∀ (w : World) (o s p : Nat) (pr : Rec) (ci c : ℚ),
      w.recs[p]? = some pr → pr.payload.charge_increment? = some ci →
      pr.payload.charge? = some c →
      ∃ w2, Enmity.construct w o s (some p) = some w2 ∧
        w2.ledger (o, s) = some w.recs.length ∧
        ∃ r, w2.recs[w.recs.length]? = some r ∧
          r.owner = o ∧ r.subject = s ∧ r.payload.type = "enmity") := by
  refine ⟨?_, ?_, ?_, ?_⟩
  · intro w o s rel
    refine ⟨by simp [kinship_construct_ledger, updateLedger], ?_⟩
    exact ⟨_, kinship_construct_new_rec w o s rel, rfl, rfl, rfl⟩
  · intro env w o s pre
    refine ⟨by simp [Acquaintance.construct_ledger, updateLedger], ?_⟩
    exact ⟨_, Acquaintance.construct_new_rec env w o s pre, rfl, rfl, rfl⟩
  · intro w o s p pr ci c hp hci hc
    refine ⟨_, friendship_construct_eq w o s p pr ci c hp hci hc, ?_, ?_⟩
    · simp [successorWorld, updateLedger]
    · exact ⟨_, successorWorld_new_rec w o s p pr _, rfl, rfl, rfl⟩
  · intro w o s p pr ci c hp hci hc
    refine ⟨_, enmity_construct_eq w o s p pr ci c hp hci hc, ?_, ?_⟩
    · simp [successorWorld, updateLedger]
    · exact ⟨_, successorWorld_new_rec w o s p pr _, rfl, rfl, rfl⟩

/-- Witness for C3 at a concrete input: constructing a `Friendship`
over the one-acquaintance world leaves the ledger pointing at the new
record. -/
theorem C3_ledger_currency_witness :
    ((Friendship.construct world1 0 1 (some 0)).bind fun w2 => w2.ledger (0, 1)) =
      some 1 := by
  obtain ⟨w2, hw2, hl, -⟩ :=
    C3_ledger_currency.2.2.1 world1 0 1 0 _ _ _ rfl rfl rfl
  rw [hw2]
  exact hl

/-- C5: Compatibility — for owner and subject traits in [-1, 1], with d
the sum of absolute differences in openness, extroversion and
agreeableness, the compatibility computed at Acquaintance creation
equals (3 - d)/3 and lies in [-1, 1]; identical trait triples yield
exactly 1, and maximal divergence (d = 6) yields -1. -/
theorem C5_compatibility_bounds (o s : Person) (d : ℚ)
    (hd : d =
      |o.personality.openness_to_experience - s.personality.openness_to_experience| +
      |o.personality.extroversion - s.personality.extroversion| +
      |o.personality.agreeableness - s.personality.agreeableness|)
    (ho1 : -1 ≤ o.personality.openness_to_experience)
    (ho2 : o.personality.openness_to_experience ≤ 1)
    (ho3 : -1 ≤ o.personality.extroversion) (ho4 : o.personality.extroversion ≤ 1)
    (ho5 : -1 ≤ o.personality.agreeableness) (ho6 : o.personality.agreeableness ≤ 1)
    (hs1 : -1 ≤ s.personality.openness_to_experience)
    (hs2 : s.personality.openness_to_experience ≤ 1)
    (hs3 : -1 ≤ s.personality.extroversion) (hs4 : s.personality.extroversion ≤ 1)
    (hs5 : -1 ≤ s.personality.agreeableness) (hs6 : s.personality.agreeableness ≤ 1) :
    Acquaintance.init_get_compatibility o s = (3 - d) / 3 ∧
    -1 ≤ Acquaintance.init_get_compatibility o s ∧
    Acquaintance.init_get_compatibility o s ≤ 1 ∧
    ((o.personality.openness_to_experience = s.personality.openness_to_experience ∧
      o.personality.extroversion = s.personality.extroversion ∧
      o.personality.agreeableness = s.personality.agreeableness) →
      Acquaintance.init_get_compatibility o s = 1) ∧
    (d = 6 → Acquaintance.init_get_compatibility o s = -1) := by
  have he : Acquaintance.init_get_compatibility o s = (3 - d) / 3 := by rw [hd]; rfl
  have h1 : |o.personality.openness_to_experience - s.personality.openness_to_experience| ≤ 2 :=
    abs_le.mpr ⟨by linarith, by linarith⟩
  have h2 : |o.personality.extroversion - s.personality.extroversion| ≤ 2 :=
    abs_le.mpr ⟨by linarith, by linarith⟩
  have h3 : |o.personality.agreeableness - s.personality.agreeableness| ≤ 2 :=
    abs_le.mpr ⟨by linarith, by linarith⟩
  have n1 := abs_nonneg (o.personality.openness_to_experience - s.personality.openness_to_experience)
  have n2 := abs_nonneg (o.personality.extroversion - s.personality.extroversion)
  have n3 := abs_nonneg (o.personality.agreeableness - s.personality.agreeableness)
  refine ⟨he, ?_, ?_, ?_, ?_⟩
  · rw [he, hd]; linarith
  · rw [he, hd]; linarith
  · rintro ⟨e1, e2, e3⟩
    rw [he, hd, e1, e2, e3]
    simp
  · intro h6
    rw [he, h6]
    norm_num

/-- Witness for C5 at a concrete input: two identical personalities
have distance 0 and compatibility exactly 1. -/
theorem C5_compatibility_bounds_witness :
    Acquaintance.init_get_compatibility personA personA = (3 - 0) / 3 ∧
    -1 ≤ Acquaintance.init_get_compatibility personA personA ∧
    Acquaintance.init_get_compatibility personA personA ≤ 1 ∧
    ((personA.personality.openness_to_experience = personA.personality.openness_to_experience ∧
      personA.personality.extroversion = personA.personality.extroversion ∧
      personA.personality.agreeableness = personA.personality.agreeableness) →
      Acquaintance.init_get_compatibility personA personA = 1) ∧
    ((0 : ℚ) = 6 → Acquaintance.init_get_compatibility personA personA = -1) :=
  C5_compatibility_bounds personA personA 0 (by norm_num [personA])
    (by norm_num [personA]) (by norm_num [personA]) (by norm_num [personA])
    (by norm_num [personA]) (by norm_num [personA]) (by norm_num [personA])
    (by norm_num [personA]) (by norm_num [personA]) (by norm_num [personA])
    (by norm_num [personA]) (by norm_num [personA]) (by norm_num [personA])

/-- C6: Charge increment formula — at Acquaintance creation,
`charge_increment` equals compatibility plus owner extroversion times
the configured multiplier plus subject agreeableness times the
configured multiplier, the whole sum multiplied by the configured
sex-difference dampening factor when owner and subject differ in the
modelled sex attribute; and `charge` is initialized to exactly this
increment. -/
theorem C6_charge_increment_formula (env : Env) (w : World) (ownerId subjectId : Nat)
    (pre : Option Nat) :
    ∃ r, (Acquaintance.construct env w ownerId subjectId pre).recs[w.recs.length]? = some r ∧
      r.payload.charge_increment? = some (
        if (env.people ownerId).male ≠ (env.people subjectId).male then
          (Acquaintance.init_get_compatibility (env.people ownerId) (env.people subjectId) +
            (env.people ownerId).personality.extroversion *
              env.config.owner_extroversion_boost_to_charge_multiplier +
            (env.people subjectId).personality.agreeableness *
              env.config.subject_agreeableness_boost_to_charge_multiplier) *
            env.config.charge_intensity_reduction_due_to_sex_difference
        else
          Acquaintance.init_get_compatibility (env.people ownerId) (env.people subjectId) +
            (env.people ownerId).personality.extroversion *
              env.config.owner_extroversion_boost_to_charge_multiplier +
            (env.people subjectId).personality.agreeableness *
              env.config.subject_agreeableness_boost_to_charge_multiplier) ∧
      r.payload.charge? = r.payload.charge_increment? := by
  refine ⟨_, Acquaintance.construct_new_rec env w ownerId subjectId pre, ?_, ?_⟩
  · simp [Payload.charge_increment?, Acquaintance.init_determine_charge_increment]
  · simp [Payload.charge?, Payload.charge_increment?]

/-- C7: Family/attraction gating — for every Acquaintance constructed
where the subject is in the owner's extended-family set, or where the
subject's modelled sex is not among the sexes the owner is attracted
to, the resulting `spark_increment` is 0 and `spark` is 0, for every
environment (hence regardless of the personalities and of all
configured multipliers). -/
theorem C7_family_attraction_gating (env : Env) (w : World) (ownerId subjectId : Nat)
    (pre : Option Nat)
    (h : subjectId ∈ (env.people ownerId).extended_family ∨
      ((env.people subjectId).male = true ∧ (env.people ownerId).attracted_to_men = false) ∨
      ((env.people subjectId).female = true ∧ (env.people ownerId).attracted_to_women = false)) :
    Acquaintance.init_determine_initial_spark_increment env.config (env.people ownerId)
      (env.people subjectId) subjectId = 0 ∧
    ∃ r, (Acquaintance.construct env w ownerId subjectId pre).recs[w.recs.length]? = some r ∧
      r.payload.spark_increment? = some 0 ∧ r.payload.spark? = some 0 := by
  have h0 : Acquaintance.init_determine_initial_spark_increment env.config
      (env.people ownerId) (env.people subjectId) subjectId = 0 := by
    unfold Acquaintance.init_determine_initial_spark_increment
    rcases h with hmem | ⟨hm, ha⟩ | ⟨hf, ha⟩
    · simp [hmem]
    · by_cases hmem : subjectId ∈ (env.people ownerId).extended_family
      · simp [hmem]
      · simp [hmem, hm, ha]
    · by_cases hmem : subjectId ∈ (env.people ownerId).extended_family
      · simp [hmem]
      · by_cases hmale :
          ((env.people subjectId).male && !(env.people ownerId).attracted_to_men) = true
        · simp [hmem, hmale]
        · simp [hmem, hmale, hf, ha]
  refine ⟨h0, _, Acquaintance.construct_new_rec env w ownerId subjectId pre, ?_, ?_⟩
  · simp [Payload.spark_increment?, h0]
  · simp [Payload.spark?, h0]

/-- Witness for C7 at a concrete input: `personA` (attracted to women
only) meeting the male `personC` gets spark increment 0. -/
theorem C7_family_attraction_gating_witness :
    Acquaintance.init_determine_initial_spark_increment env1.config (env1.people 0)
      (env1.people 1) 1 = 0 :=
  (C7_family_attraction_gating env1 World.empty 0 1 none
    (Or.inr (Or.inl ⟨by norm_num [env1, personC], by norm_num [env1, personA]⟩))).1

/-- C8: Both personality-affect helper computations for the initial
spark increment draw every trait value from the subject's personality
(none from the owner's — the owner contributes only the sex key), so
they return equal values for the same owner/subject/config, and when
the family/attraction gates do not apply the initial spark increment
equals exactly twice the subject-personality sum weighted by the
owner-sex-keyed multipliers. -/
theorem C8_spark_helpers_equal :
    (∀ (config : Config) (o s : Person),
      Acquaintance.affect_initial_spark_increment_by_own_personality config o s =
      Acquaintance.affect_initial_spark_increment_by_acquaintance_personality config o s) ∧
    (∀ (config : Config) (o o2 s : Person), o.male = o2.male →
      Acquaintance.affect_initial_spark_increment_by_own_personality config o s =
      Acquaintance.affect_initial_spark_increment_by_own_personality config o2 s) ∧
    (∀ (config : Config) (o s : Person) (subjectId : Nat),
      subjectId ∉ o.extended_family →
      (s.male && !o.attracted_to_men) = false →
      (s.female && !o.attracted_to_women) = false →
      Acquaintance.init_determine_initial_spark_increment config o s subjectId =
        2 * (s.personality.openness_to_experience *
              config.openness_boost_to_spark_multiplier o.male +
            s.personality.conscientiousness *
              config.conscientiousness_boost_to_spark_multiplier o.male +
            s.personality.extroversion *
              config.extroversion_boost_to_spark_multiplier o.male +
            s.personality.agreeableness *
              config.agreeableness_boost_to_spark_multiplier o.male +
            s.personality.neuroticism *
              config.neuroticism_boost_to_spark_multiplier o.male)) := by
  refine ⟨fun config o s => rfl, fun config o o2 s h => ?_, ?_⟩
  · unfold Acquaintance.affect_initial_spark_increment_by_own_personality
    rw [h]
  · intro config o s subjectId hmem hm hf
    unfold Acquaintance.init_determine_initial_spark_increment
    simp only [hmem, hm, hf, if_false, if_neg, Bool.false_eq_true]
    unfold Acquaintance.affect_initial_spark_increment_by_own_personality
      Acquaintance.affect_initial_spark_increment_by_acquaintance_personality
    ring

/-- Witness for C8 at a concrete input: the ungated pair
(`personA`, `personB`) gets twice the subject-personality weighted sum. -/
theorem C8_spark_helpers_equal_witness :
    Acquaintance.init_determine_initial_spark_increment config0 personA personB 1 =
      2 * (personB.personality.openness_to_experience *
            config0.openness_boost_to_spark_multiplier personA.male +
          personB.personality.conscientiousness *
            config0.conscientiousness_boost_to_spark_multiplier personA.male +
          personB.personality.extroversion *
            config0.extroversion_boost_to_spark_multiplier personA.male +
          personB.personality.agreeableness *
            config0.agreeableness_boost_to_spark_multiplier personA.male +
          personB.personality.neuroticism *
            config0.neuroticism_boost_to_spark_multiplier personA.male) :=
  C8_spark_helpers_equal.2.2 config0 personA personB 1 (by norm_num [personA])
    (by norm_num [personA, personB]) (by norm_num [personA, personB])

/-! ## Characterization of `progress_relationship` in each threshold regime -/

/-- Record count of a transition state. -/
theorem transitionWorld_length (w : World) (i : Nat) (rF newR : Rec) (o s : Nat)
    (obs : List (Nat × Nat)) :
    (transitionWorld w i rF newR o s obs).recs.length = w.recs.length + 1 := by
  simp [transitionWorld]

/-- The updated predecessor of a transition state. -/
theorem transitionWorld_rec_self (w : World) (i : Nat) (rF newR : Rec) (o s : Nat)
    (obs : List (Nat × Nat)) (hi : i < w.recs.length) :
    (transitionWorld w i rF newR o s obs).recs[i]? = some rF := by
  unfold transitionWorld
  rw [List.getElem?_append_left (by simpa using hi)]
  exact List.getElem?_set_eq_of_lt _ hi

/-- The appended successor of a transition state. -/
theorem transitionWorld_rec_new (w : World) (i : Nat) (rF newR : Rec) (o s : Nat)
    (obs : List (Nat × Nat)) :
    (transitionWorld w i rF newR o s obs).recs[w.recs.length]? = some newR := by
  unfold transitionWorld
  rw [List.getElem?_append_right (by simp)]
  simp

/-- Records other than `i` and the new index are untouched by a
transition. -/
theorem transitionWorld_rec_other (w : World) (i : Nat) (rF newR : Rec) (o s : Nat)
    (obs : List (Nat × Nat)) (j : Nat) (hj : j ≠ i) (hlt : j < w.recs.length) :
    (transitionWorld w i rF newR o s obs).recs[j]? = w.recs[j]? := by
  unfold transitionWorld
  rw [List.getElem?_append_left (by simpa using hlt)]
  exact List.getElem?_set_ne (fun h => hj h.symm)

/-- Record count of a charge-updated state. -/
theorem chargedWorld_length (w : World) (i : Nat) (r : Rec) (pl : Payload) :
    (chargedWorld w i r pl).recs.length = w.recs.length := by
  simp [chargedWorld]

/-- The updated record of a charge-updated state. -/
theorem chargedWorld_rec_self (w : World) (i : Nat) (r : Rec) (pl : Payload)
    (hi : i < w.recs.length) :
    (chargedWorld w i r pl).recs[i]? = some (recWithPayload r pl) := by
  unfold chargedWorld recWithPayload
  exact List.getElem?_set_eq_of_lt _ hi

/-- Records other than `i` are untouched by a charge update. -/
theorem chargedWorld_rec_other (w : World) (i : Nat) (r : Rec) (pl : Payload)
    (j : Nat) (hj : j ≠ i) :
    (chargedWorld w i r pl).recs[j]? = w.recs[j]? := by
  unfold chargedWorld
  exact List.getElem?_set_ne (fun h => hj h.symm)

/-- `Enmity.progress_relationship` when the updated charge crosses the
friendship threshold: a `Friendship` successor is constructed. -/
theorem enmity_progress_eq_friendship (env : Env) (w : World) (i : Nat) (r : Rec)
    (ci c : ℚ) (hr : w.recs[i]? = some r) (hp : r.payload = .enmity ci c)
    (ht : c + ci > env.config.charge_threshold_friendship) :
    Enmity.progress_relationship env w i =
      transitionWorld w i (recWithSucc r w.recs.length (.enmity ci (c + ci)))
        (newSuccessorRec r.owner r.subject i r (.friendship ci (c + ci)))
        r.owner r.subject w.observations := by
  have hi : i < w.recs.length := (List.getElem?_eq_some_iff.mp hr).1
  simp only [Enmity.progress_relationship, hr, hp]
  rw [if_pos ht]
  simp [Friendship.construct, hi, Payload.charge_increment?, Payload.charge?,
    List.set_set, transitionWorld, recWithSucc, newSuccessorRec]

/-- `Enmity.progress_relationship` when the updated charge falls below
the enmity threshold: an `Enmity` successor is constructed. -/
theorem enmity_progress_eq_enmity (env : Env) (w : World) (i : Nat) (r : Rec)
    (ci c : ℚ) (hr : w.recs[i]? = some r) (hp : r.payload = .enmity ci c)
    (htf : ¬(c + ci > env.config.charge_threshold_friendship))
    (ht : c + ci < env.config.charge_threshold_enmity) :
    Enmity.progress_relationship env w i =
      transitionWorld w i (recWithSucc r w.recs.length (.enmity ci (c + ci)))
        (newSuccessorRec r.owner r.subject i r (.enmity ci (c + ci)))
        r.owner r.subject w.observations := by
  have hi : i < w.recs.length := (List.getElem?_eq_some_iff.mp hr).1
  simp only [Enmity.progress_relationship, hr, hp]
  rw [if_neg htf, if_pos ht]
  simp [Enmity.construct, hi, Payload.charge_increment?, Payload.charge?,
    List.set_set, transitionWorld, recWithSucc, newSuccessorRec]

/-- `Enmity.progress_relationship` when the updated charge crosses
neither threshold: only the charge changes. -/
theorem enmity_progress_eq_none (env : Env) (w : World) (i : Nat) (r : Rec)
    (ci c : ℚ) (hr : w.recs[i]? = some r) (hp : r.payload = .enmity ci c)
    (htf : ¬(c + ci > env.config.charge_threshold_friendship))
    (hte : ¬(c + ci < env.config.charge_threshold_enmity)) :
    Enmity.progress_relationship env w i = chargedWorld w i r (.enmity ci (c + ci)) := by
  simp only [Enmity.progress_relationship, hr, hp]
  rw [if_neg htf, if_neg hte]
  simp [chargedWorld]

/-- `Friendship.progress_relationship` when the updated charge exceeds
the friendship threshold: a `Friendship` successor is constructed. -/
theorem friendship_progress_eq_friendship (env : Env) (w : World) (i : Nat) (r : Rec)
    (ci c : ℚ) (hr : w.recs[i]? = some r) (hp : r.payload = .friendship ci c)
    (ht : c + ci > env.config.charge_threshold_friendship) :
    Friendship.progress_relationship env w i =
      transitionWorld w i (recWithSucc r w.recs.length (.friendship ci (c + ci)))
        (newSuccessorRec r.owner r.subject i r (.friendship ci (c + ci)))
        r.owner r.subject w.observations := by
  have hi : i < w.recs.length := (List.getElem?_eq_some_iff.mp hr).1
  simp only [Friendship.progress_relationship, hr, hp]
  rw [if_pos ht]
  simp [Friendship.construct, hi, Payload.charge_increment?, Payload.charge?,
    List.set_set, transitionWorld, recWithSucc, newSuccessorRec]

/-- `Friendship.progress_relationship` when the updated charge falls
below the enmity threshold: an `Enmity` successor is constructed. -/
theorem friendship_progress_eq_enmity (env : Env) (w : World) (i : Nat) (r : Rec)
    (ci c : ℚ) (hr : w.recs[i]? = some r) (hp : r.payload = .friendship ci c)
    (htf : ¬(c + ci > env.config.charge_threshold_friendship))
    (ht : c + ci < env.config.charge_threshold_enmity) :
    Friendship.progress_relationship env w i =
      transitionWorld w i (recWithSucc r w.recs.length (.friendship ci (c + ci)))
        (newSuccessorRec r.owner r.subject i r (.enmity ci (c + ci)))
        r.owner r.subject w.observations := by
  have hi : i < w.recs.length := (List.getElem?_eq_some_iff.mp hr).1
  simp only [Friendship.progress_relationship, hr, hp]
  rw [if_neg htf, if_pos ht]
  simp [Enmity.construct, hi, Payload.charge_increment?, Payload.charge?,
    List.set_set, transitionWorld, recWithSucc, newSuccessorRec]

/-- `Friendship.progress_relationship` when the updated charge crosses
neither threshold: only the charge changes. -/
theorem friendship_progress_eq_none (env : Env) (w : World) (i : Nat) (r : Rec)
    (ci c : ℚ) (hr : w.recs[i]? = some r) (hp : r.payload = .friendship ci c)
    (htf : ¬(c + ci > env.config.charge_threshold_friendship))
    (hte : ¬(c + ci < env.config.charge_threshold_enmity)) :
    Friendship.progress_relationship env w i =
      chargedWorld w i r (.friendship ci (c + ci)) := by
  simp only [Friendship.progress_relationship, hr, hp]
  rw [if_neg htf, if_neg hte]
  simp [chargedWorld]

/-- `Acquaintance.progress_relationship` when the updated charge
crosses the friendship threshold: a `Friendship` successor is
constructed, and the spark decay, spark update and mental-model
invocation still apply to the superseded record afterwards. -/
theorem acquaintance_progress_eq_friendship (env : Env) (w : World) (i : Nat) (r : Rec)
    (compat ci c si s eff c1 si1 s1 : ℚ)
    (hr : w.recs[i]? = some r) (hp : r.payload = .acquaintance compat ci c si s)
    (heff : eff = env.config.function_to_determine_how_age_difference_reduces_charge_intensity
      (env.people r.owner).age (env.people r.subject).age)
    (hc1 : c1 = c + ci * eff) (hsi1 : si1 = si * env.config.spark_decay_rate)
    (hs1 : s1 = s + si1 * eff)
    (ht : c1 > env.config.charge_threshold_friendship) :
    Acquaintance.progress_relationship env w i =
      transitionWorld w i (recWithSucc r w.recs.length (.acquaintance compat ci c1 si1 s1))
        (newSuccessorRec r.owner r.subject i r (.friendship ci c1))
        r.owner r.subject (w.observations ++ [(r.owner, r.subject)]) := by
  have hi : i < w.recs.length := (List.getElem?_eq_some_iff.mp hr).1
  subst heff hc1 hsi1 hs1
  simp only [Acquaintance.progress_relationship, hr, hp]
  rw [if_pos ht]
  simp [Friendship.construct, World.modifyRec, form_or_build_up_mental_model, hi,
    Payload.charge_increment?, Payload.charge?, List.set_set, List.getElem?_append,
    transitionWorld, recWithSucc, newSuccessorRec]

/-- `Acquaintance.progress_relationship` when the updated charge falls
below the enmity threshold: an `Enmity` successor is constructed, and
the spark decay, spark update and mental-model invocation still apply
to the superseded record afterwards. -/
theorem acquaintance_progress_eq_enmity (env : Env) (w : World) (i : Nat) (r : Rec)
    (compat ci c si s eff c1 si1 s1 : ℚ)
    (hr : w.recs[i]? = some r) (hp : r.payload = .acquaintance compat ci c si s)
    (heff : eff = env.config.function_to_determine_how_age_difference_reduces_charge_intensity
      (env.people r.owner).age (env.people r.subject).age)
    (hc1 : c1 = c + ci * eff) (hsi1 : si1 = si * env.config.spark_decay_rate)
    (hs1 : s1 = s + si1 * eff)
    (htf : ¬(c1 > env.config.charge_threshold_friendship))
    (ht : c1 < env.config.charge_threshold_enmity) :
    Acquaintance.progress_relationship env w i =
      transitionWorld w i (recWithSucc r w.recs.length (.acquaintance compat ci c1 si1 s1))
        (newSuccessorRec r.owner r.subject i r (.enmity ci c1))
        r.owner r.subject (w.observations ++ [(r.owner, r.subject)]) := by
  have hi : i < w.recs.length := (List.getElem?_eq_some_iff.mp hr).1
  subst heff hc1 hsi1 hs1
  simp only [Acquaintance.progress_relationship, hr, hp]
  rw [if_neg htf, if_pos ht]
  simp [Enmity.construct, World.modifyRec, form_or_build_up_mental_model, hi,
    Payload.charge_increment?, Payload.charge?, List.set_set, List.getElem?_append,
    transitionWorld, recWithSucc, newSuccessorRec]

/-- `Acquaintance.progress_relationship` when the updated charge crosses
neither threshold: the charge, spark increment and spark change and a
fresh observation is logged; no successor is constructed. -/
theorem acquaintance_progress_eq_none (env : Env) (w : World) (i : Nat) (r : Rec)
    (compat ci c si s eff c1 si1 s1 : ℚ)
    (hr : w.recs[i]? = some r) (hp : r.payload = .acquaintance compat ci c si s)
    (heff : eff = env.config.function_to_determine_how_age_difference_reduces_charge_intensity
      (env.people r.owner).age (env.people r.subject).age)
    (hc1 : c1 = c + ci * eff) (hsi1 : si1 = si * env.config.spark_decay_rate)
    (hs1 : s1 = s + si1 * eff)
    (htf : ¬(c1 > env.config.charge_threshold_friendship))
    (hte : ¬(c1 < env.config.charge_threshold_enmity)) :
    Acquaintance.progress_relationship env w i =
      { chargedWorld w i r (.acquaintance compat ci c1 si1 s1) with
        observations := w.observations ++ [(r.owner, r.subject)] } := by
  have hi : i < w.recs.length := (List.getElem?_eq_some_iff.mp hr).1
  subst heff hc1 hsi1 hs1
  simp only [Acquaintance.progress_relationship, hr, hp]
  rw [if_neg htf, if_neg hte]
  simp [World.modifyRec, form_or_build_up_mental_model, hi, List.set_set,
    chargedWorld]

/-- Counterexample to C1: with an age-difference effect of 1/2, an
`Enmity` record with charge 0 and charge increment 2 progresses to
charge 2 — the raw increment — not to 0 + 2 · (1/2) = 1 as the claimed
common charge-update step (increment times age-difference effect) would
give. -/
theorem C1_counterexample :
    ((Enmity.progress_relationship envHalf worldE 0).recs[0]?.bind
      fun r2 => r2.payload.charge?) = some 2 ∧
    ¬(((Enmity.progress_relationship envHalf worldE 0).recs[0]?.bind
      fun r2 => r2.payload.charge?) =
      some (0 + 2 * envHalf.config.function_to_determine_how_age_difference_reduces_charge_intensity
        (envHalf.people 0).age (envHalf.people 1).age)) := by
  have h := enmity_progress_eq_none envHalf worldE 0 enmityRec 2 0 rfl rfl
    (by norm_num [envHalf, configHalf, config0])
    (by norm_num [envHalf, configHalf, config0])
  rw [h]
  have hrec : (chargedWorld worldE 0 enmityRec (.enmity 2 (0 + 2))).recs[0]? =
      some (recWithPayload enmityRec (.enmity 2 (0 + 2))) :=
    chargedWorld_rec_self worldE 0 enmityRec _ (by simp [worldE])
  rw [hrec]
  constructor
  · simp [recWithPayload, Payload.charge?]
  · simp only [recWithPayload, Payload.charge?, Option.bind_some]
    intro hcontra
    have : (0 + 2 : ℚ) =
        0 + 2 * envHalf.config.function_to_determine_how_age_difference_reduces_charge_intensity
          (envHalf.people 0).age (envHalf.people 1).age := by
      simpa using hcontra
    rw [show envHalf.config.function_to_determine_how_age_difference_reduces_charge_intensity
        (envHalf.people 0).age (envHalf.people 1).age = 1/2 from rfl] at this
    norm_num at this

/-- C1 (amended): one call to `progress_relationship` updates charge by
adding `charge_increment · age_difference_effect` on an `Acquaintance`,
but on a `Friendship` or `Enmity` it adds the raw `charge_increment`
with no age-difference factor — the charge-update step is not the same
for all three variants. -/
theorem C1_charge_update_per_variant :
    (∀ (env : Env) (w : World) (i : Nat) (r : Rec) (compat ci c si s : ℚ),
      w.recs[i]? = some r → r.payload = .acquaintance compat ci c si s →
      ((Acquaintance.progress_relationship env w i).recs[i]?.bind
        fun r2 => r2.payload.charge?) =
        some (c + ci * env.config.function_to_determine_how_age_difference_reduces_charge_intensity
          (env.people r.owner).age (env.people r.subject).age)) ∧
    (∀ (env : Env) (w : World) (i : Nat) (r : Rec) (ci c : ℚ),
      w.recs[i]? = some r → r.payload = .friendship ci c →
      ((Friendship.progress_relationship env w i).recs[i]?.bind
        fun r2 => r2.payload.charge?) = some (c + ci)) ∧
    (∀ (env : Env) (w : World) (i : Nat) (r : Rec) (ci c : ℚ),
      w.recs[i]? = some r → r.payload = .enmity ci c →
      ((Enmity.progress_relationship env w i).recs[i]?.bind
        fun r2 => r2.payload.charge?) = some (c + ci)) := by
  refine ⟨?_, ?_, ?_⟩
  · intro env w i r compat ci c si s hr hp
    have hi : i < w.recs.length := (List.getElem?_eq_some_iff.mp hr).1
    by_cases h1 : c + ci * env.config.function_to_determine_how_age_difference_reduces_charge_intensity
        (env.people r.owner).age (env.people r.subject).age >
        env.config.charge_threshold_friendship
    · rw [acquaintance_progress_eq_friendship env w i r compat ci c si s _ _ _ _
        hr hp rfl rfl rfl rfl h1]
      rw [transitionWorld_rec_self _ _ _ _ _ _ _ hi]
      simp [recWithSucc, Payload.charge?]
    · by_cases h2 : c + ci * env.config.function_to_determine_how_age_difference_reduces_charge_intensity
          (env.people r.owner).age (env.people r.subject).age <
          env.config.charge_threshold_enmity
      · rw [acquaintance_progress_eq_enmity env w i r compat ci c si s _ _ _ _
          hr hp rfl rfl rfl rfl h1 h2]
        rw [transitionWorld_rec_self _ _ _ _ _ _ _ hi]
        simp [recWithSucc, Payload.charge?]
      · rw [acquaintance_progress_eq_none env w i r compat ci c si s _ _ _ _
          hr hp rfl rfl rfl rfl h1 h2]
        have : ({ chargedWorld w i r (.acquaintance compat ci
            (c + ci * env.config.function_to_determine_how_age_difference_reduces_charge_intensity
              (env.people r.owner).age (env.people r.subject).age)
            (si * env.config.spark_decay_rate)
            (s + si * env.config.spark_decay_rate *
              env.config.function_to_determine_how_age_difference_reduces_charge_intensity
                (env.people r.owner).age (env.people r.subject).age)) with
            observations := w.observations ++ [(r.owner, r.subject)] } : World).recs[i]? =
            (chargedWorld w i r (.acquaintance compat ci
            (c + ci * env.config.function_to_determine_how_age_difference_reduces_charge_intensity
              (env.people r.owner).age (env.people r.subject).age)
            (si * env.config.spark_decay_rate)
            (s + si * env.config.spark_decay_rate *
              env.config.function_to_determine_how_age_difference_reduces_charge_intensity
                (env.people r.owner).age (env.people r.subject).age))).recs[i]? := rfl
        rw [this, chargedWorld_rec_self _ _ _ _ hi]
        simp [recWithPayload, Payload.charge?]
  · intro env w i r ci c hr hp
    have hi : i < w.recs.length := (List.getElem?_eq_some_iff.mp hr).1
    by_cases h1 : c + ci > env.config.charge_threshold_friendship
    · rw [friendship_progress_eq_friendship env w i r ci c hr hp h1]
      rw [transitionWorld_rec_self _ _ _ _ _ _ _ hi]
      simp [recWithSucc, Payload.charge?]
    · by_cases h2 : c + ci < env.config.charge_threshold_enmity
      · rw [friendship_progress_eq_enmity env w i r ci c hr hp h1 h2]
        rw [transitionWorld_rec_self _ _ _ _ _ _ _ hi]
        simp [recWithSucc, Payload.charge?]
      · rw [friendship_progress_eq_none env w i r ci c hr hp h1 h2]
        rw [chargedWorld_rec_self _ _ _ _ hi]
        simp [recWithPayload, Payload.charge?]
  · intro env w i r ci c hr hp
    have hi : i < w.recs.length := (List.getElem?_eq_some_iff.mp hr).1
    by_cases h1 : c + ci > env.config.charge_threshold_friendship
    · rw [enmity_progress_eq_friendship env w i r ci c hr hp h1]
      rw [transitionWorld_rec_self _ _ _ _ _ _ _ hi]
      simp [recWithSucc, Payload.charge?]
    · by_cases h2 : c + ci < env.config.charge_threshold_enmity
      · rw [enmity_progress_eq_enmity env w i r ci c hr hp h1 h2]
        rw [transitionWorld_rec_self _ _ _ _ _ _ _ hi]
        simp [recWithSucc, Payload.charge?]
      · rw [enmity_progress_eq_none env w i r ci c hr hp h1 h2]
        rw [chargedWorld_rec_self _ _ _ _ hi]
        simp [recWithPayload, Payload.charge?]

/-- Witness for the amended C1 at a concrete input: the enmity record
with charge 0 and increment 2 progresses to charge exactly 0 + 2. -/
theorem C1_charge_update_per_variant_witness :
    ((Enmity.progress_relationship envHalf worldE 0).recs[0]?.bind
      fun r2 => r2.payload.charge?) = some (0 + 2) :=
  C1_charge_update_per_variant.2.2 envHalf worldE 0 enmityRec 2 0 rfl rfl

/-- C4: Threshold transitions — during `progress_relationship`, after
the charge update, a Friendship successor is constructed iff the
updated charge strictly exceeds `charge_threshold_friendship`,
otherwise an Enmity successor is constructed iff it is strictly below
`charge_threshold_enmity`, otherwise no record is constructed (for all
three progressing variants); and with thresholds 5.0 / -5.0, a record
with charge 4.0 and increment 1.5 progressing once reaches charge 5.5
and triggers a Friendship transition, while with increment -2.0 it
reaches charge 2.0 and triggers none. -/
theorem C4_threshold_transitions :
    (∀ (env : Env) (w : World) (i : Nat) (r : Rec) (compat ci c si s eff c1 : ℚ),
      w.recs[i]? = some r → r.payload = .acquaintance compat ci c si s →
      eff = env.config.function_to_determine_how_age_difference_reduces_charge_intensity
        (env.people r.owner).age (env.people r.subject).age →
      c1 = c + ci * eff →
      (((Acquaintance.progress_relationship env w i).recs.length = w.recs.length + 1 ∧
        ((Acquaintance.progress_relationship env w i).recs[w.recs.length]?.map
          fun r2 => r2.payload.type) = some "friendship") ↔
        c1 > env.config.charge_threshold_friendship) ∧
      (((Acquaintance.progress_relationship env w i).recs.length = w.recs.length + 1 ∧
        ((Acquaintance.progress_relationship env w i).recs[w.recs.length]?.map
          fun r2 => r2.payload.type) = some "enmity") ↔
        (¬(c1 > env.config.charge_threshold_friendship) ∧
          c1 < env.config.charge_threshold_enmity)) ∧
      ((Acquaintance.progress_relationship env w i).recs.length = w.recs.length ↔
        (¬(c1 > env.config.charge_threshold_friendship) ∧
          ¬(c1 < env.config.charge_threshold_enmity)))) ∧
    (∀ (env : Env) (w : World) (i : Nat) (r : Rec) (ci c : ℚ),
      w.recs[i]? = some r → r.payload = .friendship ci c →
      (((Friendship.progress_relationship env w i).recs.length = w.recs.length + 1 ∧
        ((Friendship.progress_relationship env w i).recs[w.recs.length]?.map
          fun r2 => r2.payload.type) = some "friendship") ↔
        c + ci > env.config.charge_threshold_friendship) ∧
      (((Friendship.progress_relationship env w i).recs.length = w.recs.length + 1 ∧
        ((Friendship.progress_relationship env w i).recs[w.recs.length]?.map
          fun r2 => r2.payload.type) = some "enmity") ↔
        (¬(c + ci > env.config.charge_threshold_friendship) ∧
          c + ci < env.config.charge_threshold_enmity)) ∧
      ((Friendship.progress_relationship env w i).recs.length = w.recs.length ↔
        (¬(c + ci > env.config.charge_threshold_friendship) ∧
          ¬(c + ci < env.config.charge_threshold_enmity)))) ∧
    (∀ (env : Env) (w : World) (i : Nat) (r : Rec) (ci c : ℚ),
      w.recs[i]? = some r → r.payload = .enmity ci c →
      (((Enmity.progress_relationship env w i).recs.length = w.recs.length + 1 ∧
        ((Enmity.progress_relationship env w i).recs[w.recs.length]?.map
          fun r2 => r2.payload.type) = some "friendship") ↔
        c + ci > env.config.charge_threshold_friendship) ∧
      (((Enmity.progress_relationship env w i).recs.length = w.recs.length + 1 ∧
        ((Enmity.progress_relationship env w i).recs[w.recs.length]?.map
          fun r2 => r2.payload.type) = some "enmity") ↔
        (¬(c + ci > env.config.charge_threshold_friendship) ∧
          c + ci < env.config.charge_threshold_enmity)) ∧
      ((Enmity.progress_relationship env w i).recs.length = w.recs.length ↔
        (¬(c + ci > env.config.charge_threshold_friendship) ∧
          ¬(c + ci < env.config.charge_threshold_enmity)))) ∧
    (((Acquaintance.progress_relationship env0 world45 0).recs[0]?.bind
        fun r2 => r2.payload.charge?) = some (11/2) ∧
      (Acquaintance.progress_relationship env0 world45 0).recs.length =
        world45.recs.length + 1 ∧
      ((Acquaintance.progress_relationship env0 world45 0).recs[world45.recs.length]?.map
        fun r2 => r2.payload.type) = some "friendship") ∧
    (((Acquaintance.progress_relationship env0 worldNeg 0).recs[0]?.bind
        fun r2 => r2.payload.charge?) = some 2 ∧
      (Acquaintance.progress_relationship env0 worldNeg 0).recs.length =
        worldNeg.recs.length) := by
  refine ⟨?_, ?_, ?_, ?_, ?_⟩
  · intro env w i r compat ci c si s eff c1 hr hp heff hc1
    have hi : i < w.recs.length := (List.getElem?_eq_some_iff.mp hr).1
    by_cases h1 : c1 > env.config.charge_threshold_friendship
    · rw [acquaintance_progress_eq_friendship env w i r compat ci c si s eff c1 _ _
        hr hp heff hc1 rfl rfl h1, transitionWorld_rec_new]
      refine ⟨?_, ?_, ?_⟩ <;>
        simp [transitionWorld_length, newSuccessorRec, Payload.type, h1]
    · by_cases h2 : c1 < env.config.charge_threshold_enmity
      · rw [acquaintance_progress_eq_enmity env w i r compat ci c si s eff c1 _ _
          hr hp heff hc1 rfl rfl h1 h2, transitionWorld_rec_new]
        refine ⟨?_, ?_, ?_⟩ <;>
          simp [transitionWorld_length, newSuccessorRec, Payload.type, h1, h2]
      · rw [acquaintance_progress_eq_none env w i r compat ci c si s eff c1 _ _
          hr hp heff hc1 rfl rfl h1 h2]
        refine ⟨?_, ?_, ?_⟩ <;>
          simp [chargedWorld, h1, h2]
  · intro env w i r ci c hr hp
    have hi : i < w.recs.length := (List.getElem?_eq_some_iff.mp hr).1
    by_cases h1 : c + ci > env.config.charge_threshold_friendship
    · rw [friendship_progress_eq_friendship env w i r ci c hr hp h1,
        transitionWorld_rec_new]
      refine ⟨?_, ?_, ?_⟩ <;>
        simp [transitionWorld_length, newSuccessorRec, Payload.type, h1]
    · by_cases h2 : c + ci < env.config.charge_threshold_enmity
      · rw [friendship_progress_eq_enmity env w i r ci c hr hp h1 h2,
          transitionWorld_rec_new]
        refine ⟨?_, ?_, ?_⟩ <;>
          simp [transitionWorld_length, newSuccessorRec, Payload.type, h1, h2]
      · rw [friendship_progress_eq_none env w i r ci c hr hp h1 h2]
        refine ⟨?_, ?_, ?_⟩ <;>
          simp [chargedWorld, h1, h2]
  · intro env w i r ci c hr hp
    have hi : i < w.recs.length := (List.getElem?_eq_some_iff.mp hr).1
    by_cases h1 : c + ci > env.config.charge_threshold_friendship
    · rw [enmity_progress_eq_friendship env w i r ci c hr hp h1,
        transitionWorld_rec_new]
      refine ⟨?_, ?_, ?_⟩ <;>
        simp [transitionWorld_length, newSuccessorRec, Payload.type, h1]
    · by_cases h2 : c + ci < env.config.charge_threshold_enmity
      · rw [enmity_progress_eq_enmity env w i r ci c hr hp h1 h2,
          transitionWorld_rec_new]
        refine ⟨?_, ?_, ?_⟩ <;>
          simp [transitionWorld_length, newSuccessorRec, Payload.type, h1, h2]
      · rw [enmity_progress_eq_none env w i r ci c hr hp h1 h2]
        refine ⟨?_, ?_, ?_⟩ <;>
          simp [chargedWorld, h1, h2]
  · have ht : (4 : ℚ) + 3/2 *
        env0.config.function_to_determine_how_age_difference_reduces_charge_intensity
          (env0.people acqRec45.owner).age (env0.people acqRec45.subject).age >
        env0.config.charge_threshold_friendship := by
      norm_num [env0, config0, acqRec45, personA, personB]
    rw [acquaintance_progress_eq_friendship env0 world45 0 acqRec45 1 (3/2) 4 1 1
      _ _ _ _ rfl rfl rfl rfl rfl rfl ht]
    refine ⟨?_, ?_, ?_⟩
    · rw [show (0 : Nat) = 0 from rfl,
        transitionWorld_rec_self _ _ _ _ _ _ _ (by simp [world45])]
      simp [recWithSucc, Payload.charge?]
      norm_num [env0, config0, acqRec45, personA, personB]
    · exact transitionWorld_length _ _ _ _ _ _ _
    · rw [transitionWorld_rec_new]
      simp [newSuccessorRec, Payload.type]
  · have htf : ¬((4 : ℚ) + (-2) *
        env0.config.function_to_determine_how_age_difference_reduces_charge_intensity
          (env0.people acqRecNeg.owner).age (env0.people acqRecNeg.subject).age >
        env0.config.charge_threshold_friendship) := by
      norm_num [env0, config0, acqRecNeg, personA, personB]
    have hte : ¬((4 : ℚ) + (-2) *
        env0.config.function_to_determine_how_age_difference_reduces_charge_intensity
          (env0.people acqRecNeg.owner).age (env0.people acqRecNeg.subject).age <
        env0.config.charge_threshold_enmity) := by
      norm_num [env0, config0, acqRecNeg, personA, personB]
    rw [acquaintance_progress_eq_none env0 worldNeg 0 acqRecNeg 1 (-2) 4 1 1
      _ _ _ _ rfl rfl rfl rfl rfl rfl htf hte]
    constructor
    · have hrec := chargedWorld_rec_self worldNeg 0 acqRecNeg
        (.acquaintance 1 (-2)
          (4 + (-2) * env0.config.function_to_determine_how_age_difference_reduces_charge_intensity
            (env0.people acqRecNeg.owner).age (env0.people acqRecNeg.subject).age)
          (1 * env0.config.spark_decay_rate)
          (1 + 1 * env0.config.spark_decay_rate *
            env0.config.function_to_determine_how_age_difference_reduces_charge_intensity
              (env0.people acqRecNeg.owner).age (env0.people acqRecNeg.subject).age))
        (by simp [worldNeg])
      rw [show ∀ (X : World) (o : List (Nat × Nat)),
          ({ X with observations := o } : World).recs[(0 : Nat)]? = X.recs[(0 : Nat)]?
          from fun X o => rfl]
      rw [hrec]
      simp [recWithPayload, Payload.charge?]
      norm_num [env0, config0, acqRecNeg, personA, personB]
    · simp [chargedWorld, worldNeg]

/-- Witness for C4 at a concrete input: the enmity record with charge
0 and increment 2 under thresholds 5 / -5 constructs nothing. -/
theorem C4_threshold_transitions_witness :
    (Enmity.progress_relationship env0 worldE 0).recs.length = worldE.recs.length :=
  ((C4_threshold_transitions.2.2.1 env0 worldE 0 enmityRec 2 0 rfl rfl).2.2).mpr
    ⟨by norm_num [env0, config0], by norm_num [env0, config0]⟩

/-- C10: On every `Acquaintance.progress_relationship` call — including
one in which the charge threshold is crossed and a successor is
constructed — the same call afterwards still multiplies
`spark_increment` by the configured decay rate, adds
`spark_increment · age-difference effect` to `spark`, and re-invokes
the mental-model update; in particular the just-superseded record is
still mutated (it then carries the link to its successor). -/
theorem C10_superseded_record_still_mutated (env : Env) (w : World) (i : Nat)
    (r : Rec) (compat ci c si s : ℚ)
    (hr : w.recs[i]? = some r) (hp : r.payload = .acquaintance compat ci c si s) :
    ∃ r2, (Acquaintance.progress_relationship env w i).recs[i]? = some r2 ∧
      r2.payload.spark_increment? = some (si * env.config.spark_decay_rate) ∧
      r2.payload.spark? = some (s + si * env.config.spark_decay_rate *
        env.config.function_to_determine_how_age_difference_reduces_charge_intensity
          (env.people r.owner).age (env.people r.subject).age) ∧
      (Acquaintance.progress_relationship env w i).observations =
        w.observations ++ [(r.owner, r.subject)] ∧
      (c + ci * env.config.function_to_determine_how_age_difference_reduces_charge_intensity
          (env.people r.owner).age (env.people r.subject).age >
          env.config.charge_threshold_friendship →
        r2.succeeded_by = some w.recs.length) := by
  have hi : i < w.recs.length := (List.getElem?_eq_some_iff.mp hr).1
  by_cases h1 : c + ci * env.config.function_to_determine_how_age_difference_reduces_charge_intensity
      (env.people r.owner).age (env.people r.subject).age >
      env.config.charge_threshold_friendship
  · rw [acquaintance_progress_eq_friendship env w i r compat ci c si s _ _ _ _
      hr hp rfl rfl rfl rfl h1]
    refine ⟨_, transitionWorld_rec_self _ _ _ _ _ _ _ hi, ?_, ?_, rfl, ?_⟩
    · simp [recWithSucc, Payload.spark_increment?]
    · simp [recWithSucc, Payload.spark?]
    · intro _
      simp [recWithSucc]
  · by_cases h2 : c + ci * env.config.function_to_determine_how_age_difference_reduces_charge_intensity
        (env.people r.owner).age (env.people r.subject).age <
        env.config.charge_threshold_enmity
    · rw [acquaintance_progress_eq_enmity env w i r compat ci c si s _ _ _ _
        hr hp rfl rfl rfl rfl h1 h2]
      refine ⟨_, transitionWorld_rec_self _ _ _ _ _ _ _ hi, ?_, ?_, rfl, ?_⟩
      · simp [recWithSucc, Payload.spark_increment?]
      · simp [recWithSucc, Payload.spark?]
      · intro hcontra
        exact absurd hcontra h1
    · rw [acquaintance_progress_eq_none env w i r compat ci c si s _ _ _ _
        hr hp rfl rfl rfl rfl h1 h2]
      have hrec : ∀ (X : World) (o : List (Nat × Nat)),
          ({ X with observations := o } : World).recs[i]? = X.recs[i]? :=
        fun X o => rfl
      rw [hrec, chargedWorld_rec_self _ _ _ _ hi]
      refine ⟨_, rfl, ?_, ?_, rfl, ?_⟩
      · simp [recWithPayload, Payload.spark_increment?]
      · simp [recWithPayload, Payload.spark?]
      · intro hcontra
        exact absurd hcontra h1

/-- Witness for C10 at a concrete input: the threshold-crossing call on
`acqRec45` still decays its spark increment to 9/10, updates spark to
19/10, logs a fresh observation, and links `succeeded_by`. -/
theorem C10_superseded_record_still_mutated_witness :
    ((Acquaintance.progress_relationship env0 world45 0).recs[0]?.map
      fun r2 => (r2.payload.spark_increment?, r2.payload.spark?, r2.succeeded_by)) =
      some (some (9/10), some (19/10), some 1) ∧
    (Acquaintance.progress_relationship env0 world45 0).observations =
      world45.observations ++ [(0, 1)] := by
  obtain ⟨r2, h1, h2, h3, h4, h5⟩ :=
    C10_superseded_record_still_mutated env0 world45 0 acqRec45 1 (3/2) 4 1 1 rfl rfl
  have hsucc := h5 (by norm_num [env0, config0, acqRec45, personA, personB])
  constructor
  · rw [h1]
    show some (r2.payload.spark_increment?, r2.payload.spark?, r2.succeeded_by) = _
    rw [h2, h3, hsucc]
    norm_num [env0, config0, acqRec45, personA, personB, world45]
  · rw [h4]
    simp [acqRec45, world45]

/-- Counterexample to C9: the predecessor of record 0 in `worldS`
already has a non-null `succeeded_by`, yet constructing a `Friendship`
over it completes normally — the constructors never check for an
existing successor. -/
theorem C9_counterexample :
    (worldS.recs[0]?.map Rec.succeeded_by) = some (some 1) ∧
    (Friendship.construct worldS 0 1 (some 0)).isSome = true :=
  ⟨rfl, rfl⟩

/-- C9 (amended): constructing a `Friendship` or `Enmity` with a null
predecessor fails fast (the unconditional attribute assignment on the
predecessor raises), but the code performs no check that the
predecessor lacks a successor: with any valid charge-carrying
predecessor, construction completes normally and silently overwrites
the predecessor's `succeeded_by` with the new record's index. -/
theorem C9_predecessor_mandatory :
    (∀ (w : World) (o s : Nat),
      Friendship.construct w o s none = none ∧ Enmity.construct w o s none = none) ∧
    (∀ (w : World) (o s p : Nat) (pr : Rec) (ci c : ℚ),
      w.recs[p]? = some pr → pr.payload.charge_increment? = some ci →
      pr.payload.charge? = some c →
      (Friendship.construct w o s (some p)).isSome = true ∧
      (Enmity.construct w o s (some p)).isSome = true ∧
      ((Friendship.construct w o s (some p)).bind
        fun w2 => w2.recs[p]?.map Rec.succeeded_by) = some (some w.recs.length) ∧
      ((Enmity.construct w o s (some p)).bind
        fun w2 => w2.recs[p]?.map Rec.succeeded_by) = some (some w.recs.length)) := by
  constructor
  · intro w o s
    exact ⟨rfl, rfl⟩
  · intro w o s p pr ci c hp hci hc
    have hlt : p < w.recs.length := (List.getElem?_eq_some_iff.mp hp).1
    rw [friendship_construct_eq w o s p pr ci c hp hci hc,
      enmity_construct_eq w o s p pr ci c hp hci hc]
    refine ⟨rfl, rfl, ?_, ?_⟩
    · show (Option.map Rec.succeeded_by
        (successorWorld w o s p pr (Payload.friendship ci c)).recs[p]?) = _
      rw [successorWorld_pred_rec w o s p pr _ hlt]
      rfl
    · show (Option.map Rec.succeeded_by
        (successorWorld w o s p pr (Payload.enmity ci c)).recs[p]?) = _
      rw [successorWorld_pred_rec w o s p pr _ hlt]
      rfl

/-- Witness for the amended C9 at a concrete input: constructing over
the already-succeeded record 0 of `worldS` overwrites its successor
link with the new index 2. -/
theorem C9_predecessor_mandatory_witness :
    ((Friendship.construct worldS 0 1 (some 0)).bind
      fun w2 => w2.recs[0]?.map Rec.succeeded_by) = some (some 2) :=
  (C9_predecessor_mandatory.2 worldS 0 1 0 recWithSuccessor 1 1 rfl rfl rfl).2.2.1

/-! ## Invariants of the driver protocol (chain integrity) -/

/-- Decomposition of an element lookup in `l ++ [a]`. -/
theorem getElem?_concat_cases {α : Type} (l : List α) (a : α) (i : Nat) (r : α)
    (h : (l ++ [a])[i]? = some r) :
    (i < l.length ∧ l[i]? = some r) ∨ (i = l.length ∧ r = a) := by
  rcases Nat.lt_or_ge i l.length with hi | hi
  · left
    exact ⟨hi, by rwa [List.getElem?_append_left hi] at h⟩
  · right
    rw [List.getElem?_append_right hi] at h
    have hk : i - l.length < 1 := by
      have := (List.getElem?_eq_some_iff.mp h).1
      simpa using this
    have h0 : i - l.length = 0 := by omega
    rw [h0] at h
    simp at h
    exact ⟨by omega, h.symm⟩

/-- `Kinship.construct` appends exactly one record. -/
theorem kinship_construct_length (w : World) (o s : Nat) (rel : String) :
    (Kinship.construct w o s rel).recs.length = w.recs.length + 1 := by
  simp [Kinship.construct]

/-- Existing records are untouched by `Kinship.construct`. -/
theorem kinship_construct_other (w : World) (o s : Nat) (rel : String) (j : Nat)
    (hj : j < w.recs.length) :
    (Kinship.construct w o s rel).recs[j]? = w.recs[j]? := by
  unfold Kinship.construct
  exact List.getElem?_append_left (by simpa using hj)

/-- Existing records are untouched by a predecessor-free
`Acquaintance.construct`. -/
theorem Acquaintance.construct_none_other (env : Env) (w : World) (o s : Nat)
    (j : Nat) (hj : j < w.recs.length) :
    (Acquaintance.construct env w o s none).recs[j]? = w.recs[j]? := by
  simp only [Acquaintance.construct, form_or_build_up_mental_model]
  exact List.getElem?_append_left (by simpa using hj)

/-- `Acquaintance.construct` over predecessor `k` links the
predecessor's `succeeded_by` to the new index. -/
theorem Acquaintance.construct_some_pred (env : Env) (w : World) (o s k : Nat)
    (pr : Rec) (hp : w.recs[k]? = some pr) :
    (Acquaintance.construct env w o s (some k)).recs[k]? =
      some { pr with succeeded_by := some w.recs.length } := by
  have hk : k < w.recs.length := (List.getElem?_eq_some_iff.mp hp).1
  simp only [Acquaintance.construct, form_or_build_up_mental_model, hp]
  rw [List.getElem?_append_left (by simpa using hk)]
  exact List.getElem?_set_eq_of_lt _ hk

/-- Records other than the predecessor are untouched by an
`Acquaintance.construct` over predecessor `k`. -/
theorem Acquaintance.construct_some_other (env : Env) (w : World) (o s k : Nat)
    (pr : Rec) (hp : w.recs[k]? = some pr) (j : Nat) (hj : j ≠ k)
    (hlt : j < w.recs.length) :
    (Acquaintance.construct env w o s (some k)).recs[j]? = w.recs[j]? := by
  simp only [Acquaintance.construct, form_or_build_up_mental_model, hp]
  rw [List.getElem?_append_left (by simpa using hlt)]
  exact List.getElem?_set_ne (fun h => hj h.symm)

/-- The ledger of a transition state. -/
theorem transitionWorld_ledger (w : World) (i : Nat) (rF newR : Rec) (o s : Nat)
    (obs : List (Nat × Nat)) :
    (transitionWorld w i rF newR o s obs).ledger =
      updateLedger w.ledger (o, s) w.recs.length := rfl

/-- The ledger of a charge-updated state. -/
theorem chargedWorld_ledger (w : World) (i : Nat) (r : Rec) (pl : Payload) :
    (chargedWorld w i r pl).ledger = w.ledger := rfl

/-- Changing only the observation log preserves `ledgerInv`. -/
theorem ledgerInv_obs (w : World) (obs : List (Nat × Nat)) :
    ledgerInv { w with observations := obs } ↔ ledgerInv w := Iff.rfl

/-- Changing only the observation log preserves `chainInv`. -/
theorem chainInv_obs (w : World) (obs : List (Nat × Nat)) :
    chainInv { w with observations := obs } ↔ chainInv w := Iff.rfl

/-- Changing only the observation log preserves `succStable`. -/
theorem succStable_obs (w w2 : World) (obs : List (Nat × Nat)) :
    succStable w { w2 with observations := obs } ↔ succStable w w2 := Iff.rfl

/-- A charge update on an existing record preserves both invariants. -/
theorem chargedWorld_preserves_inv (w : World) (i : Nat) (r : Rec) (pl : Payload)
    (hr : w.recs[i]? = some r) (hL : ledgerInv w) (hC : chainInv w) :
    ledgerInv (chargedWorld w i r pl) ∧ chainInv (chargedWorld w i r pl) := by
  have hi : i < w.recs.length := (List.getElem?_eq_some_iff.mp hr).1
  constructor
  · intro p ip hip
    rw [chargedWorld_ledger] at hip
    obtain ⟨r2, hr2, h1, h2, h3⟩ := hL p ip hip
    by_cases hii : ip = i
    · subst hii
      rw [hr] at hr2
      injection hr2 with hr2
      subst hr2
      exact ⟨recWithPayload r pl, chargedWorld_rec_self w ip r pl hi, h1, h2, h3⟩
    · exact ⟨r2, by rw [chargedWorld_rec_other w i r pl ip hii]; exact hr2, h1, h2, h3⟩
  · intro i2 r2 j h2 hsucc
    by_cases hii : i2 = i
    · subst hii
      rw [chargedWorld_rec_self w i2 r pl hi] at h2
      injection h2 with h2
      subst h2
      obtain ⟨rj, hrj, hprec⟩ := hC i2 r j hr hsucc
      by_cases hji : j = i2
      · subst hji
        rw [hr] at hrj
        injection hrj with hrj
        subst hrj
        exact ⟨recWithPayload r pl, chargedWorld_rec_self w j r pl hi, hprec⟩
      · exact ⟨rj, by rw [chargedWorld_rec_other w i2 r pl j hji]; exact hrj, hprec⟩
    · have hold : w.recs[i2]? = some r2 := by
        rw [← chargedWorld_rec_other w i r pl i2 hii]; exact h2
      obtain ⟨rj, hrj, hprec⟩ := hC i2 r2 j hold hsucc
      by_cases hji : j = i
      · subst hji
        rw [hr] at hrj
        injection hrj with hrj
        subst hrj
        exact ⟨recWithPayload r pl, chargedWorld_rec_self w j r pl hi, hprec⟩
      · exact ⟨rj, by rw [chargedWorld_rec_other w i r pl j hji]; exact hrj, hprec⟩

/-- A successor transition on an existing record preserves both
invariants. -/
theorem transitionWorld_preserves_inv (w : World) (i : Nat) (r : Rec)
    (pl pl2 : Payload) (obs : List (Nat × Nat))
    (hr : w.recs[i]? = some r) (hL : ledgerInv w) (hC : chainInv w) :
    ledgerInv (transitionWorld w i (recWithSucc r w.recs.length pl)
      (newSuccessorRec r.owner r.subject i r pl2) r.owner r.subject obs) ∧
    chainInv (transitionWorld w i (recWithSucc r w.recs.length pl)
      (newSuccessorRec r.owner r.subject i r pl2) r.owner r.subject obs) := by
  have hi : i < w.recs.length := (List.getElem?_eq_some_iff.mp hr).1
  constructor
  · intro p ip hip
    rw [transitionWorld_ledger] at hip
    unfold updateLedger at hip
    by_cases hpq : p = (r.owner, r.subject)
    · rw [if_pos hpq] at hip
      injection hip with hip
      subst hip
      refine ⟨newSuccessorRec r.owner r.subject i r pl2,
        transitionWorld_rec_new w i _ _ _ _ _, ?_, ?_, rfl⟩
      · simp [newSuccessorRec, hpq]
      · simp [newSuccessorRec, hpq]
    · rw [if_neg hpq] at hip
      obtain ⟨r2, hr2, h1, h2, h3⟩ := hL p ip hip
      have hlt : ip < w.recs.length := (List.getElem?_eq_some_iff.mp hr2).1
      have hii : ip ≠ i := by
        intro he
        subst he
        rw [hr] at hr2
        injection hr2 with hr2
        subst hr2
        apply hpq
        rw [h1, h2]
      refine ⟨r2, ?_, h1, h2, h3⟩
      rw [transitionWorld_rec_other w i _ _ _ _ _ ip hii hlt]
      exact hr2
  · intro i2 r2 j h2 hsucc
    have hlen2 : i2 < w.recs.length + 1 := by
      have h3 := (List.getElem?_eq_some_iff.mp h2).1
      rwa [transitionWorld_length] at h3
    by_cases hi2 : i2 = w.recs.length
    · subst hi2
      rw [transitionWorld_rec_new] at h2
      injection h2 with h2
      subst h2
      simp [newSuccessorRec] at hsucc
    · have hlt : i2 < w.recs.length := by omega
      by_cases hii : i2 = i
      · subst hii
        rw [transitionWorld_rec_self _ _ _ _ _ _ _ hi] at h2
        injection h2 with h2
        subst h2
        have hj : w.recs.length = j := by
          have hsucc2 : (recWithSucc r w.recs.length pl).succeeded_by = some j := hsucc
          simpa [recWithSucc] using hsucc2
        subst hj
        exact ⟨newSuccessorRec r.owner r.subject i2 r pl2,
          transitionWorld_rec_new w i2 _ _ _ _ _, rfl⟩
      · have hold : w.recs[i2]? = some r2 := by
          rw [← transitionWorld_rec_other w i _ _ _ _ _ i2 hii hlt]; exact h2
        obtain ⟨rj, hrj, hprec⟩ := hC i2 r2 j hold hsucc
        have hjlt : j < w.recs.length := (List.getElem?_eq_some_iff.mp hrj).1
        by_cases hji : j = i
        · subst hji
          rw [hr] at hrj
          injection hrj with hrj
          subst hrj
          exact ⟨recWithSucc r w.recs.length pl,
            transitionWorld_rec_self _ _ _ _ _ _ _ hi, hprec⟩
        · refine ⟨rj, ?_, hprec⟩
          rw [transitionWorld_rec_other w i _ _ _ _ _ j hji hjlt]
          exact hrj

/-- A successor transition on a record with a null successor link never
rewrites an already-set `succeeded_by`. -/
theorem transitionWorld_succStable (w : World) (i : Nat) (r : Rec) (rF newR : Rec)
    (o2 s2 : Nat) (obs : List (Nat × Nat))
    (hr : w.recs[i]? = some r) (hsn : r.succeeded_by = none) :
    succStable w (transitionWorld w i rF newR o2 s2 obs) := by
  intro i2 r2 j h2 hsucc
  have hlt : i2 < w.recs.length := (List.getElem?_eq_some_iff.mp h2).1
  by_cases hii : i2 = i
  · subst hii
    rw [hr] at h2
    injection h2 with h2
    subst h2
    rw [hsn] at hsucc
    cases hsucc
  · refine ⟨r2, ?_, hsucc⟩
    rw [transitionWorld_rec_other w i rF newR o2 s2 obs i2 hii hlt]
    exact h2

/-- A charge update never rewrites an already-set `succeeded_by`. -/
theorem chargedWorld_succStable (w : World) (i : Nat) (r : Rec) (pl : Payload)
    (hr : w.recs[i]? = some r) :
    succStable w (chargedWorld w i r pl) := by
  intro i2 r2 j h2 hsucc
  have hlt : i2 < w.recs.length := (List.getElem?_eq_some_iff.mp h2).1
  by_cases hii : i2 = i
  · subst hii
    rw [hr] at h2
    injection h2 with h2
    subst h2
    exact ⟨recWithPayload r pl, chargedWorld_rec_self w i2 r pl hlt, hsucc⟩
  · exact ⟨r2, by rw [chargedWorld_rec_other w i r pl i2 hii]; exact h2, hsucc⟩

/-- Every driver operation preserves the ledger and chain invariants
and never rewrites an already-set successor link. -/
theorem step_preserves (env : Env) (w w2 : World) (hs : Step env w w2)
    (hL : ledgerInv w) (hC : chainInv w) :
    (ledgerInv w2 ∧ chainInv w2) ∧ succStable w w2 := by
  cases hs with
  | kinship o s rel h =>
    refine ⟨⟨?_, ?_⟩, ?_⟩
    · intro p ip hip
      rw [kinship_construct_ledger] at hip
      unfold updateLedger at hip
      by_cases hpq : p = (o, s)
      · rw [if_pos hpq] at hip
        injection hip with hip
        subst hip
        refine ⟨_, kinship_construct_new_rec w o s rel, ?_, ?_, rfl⟩ <;> simp [hpq]
      · rw [if_neg hpq] at hip
        obtain ⟨r2, hr2, h1, h2, h3⟩ := hL p ip hip
        have hlt : ip < w.recs.length := (List.getElem?_eq_some_iff.mp hr2).1
        refine ⟨r2, ?_, h1, h2, h3⟩
        rw [kinship_construct_other w o s rel ip hlt]
        exact hr2
    · intro i2 r2 j h2 hsucc
      have hlen2 : i2 < w.recs.length + 1 := by
        have h3 := (List.getElem?_eq_some_iff.mp h2).1
        rwa [kinship_construct_length] at h3
      by_cases hi2 : i2 = w.recs.length
      · subst hi2
        rw [kinship_construct_new_rec] at h2
        injection h2 with h2
        subst h2
        simp at hsucc
      · have hlt : i2 < w.recs.length := by omega
        have hold : w.recs[i2]? = some r2 := by
          rw [← kinship_construct_other w o s rel i2 hlt]; exact h2
        obtain ⟨rj, hrj, hprec⟩ := hC i2 r2 j hold hsucc
        have hjlt : j < w.recs.length := (List.getElem?_eq_some_iff.mp hrj).1
        refine ⟨rj, ?_, hprec⟩
        rw [kinship_construct_other w o s rel j hjlt]
        exact hrj
    · intro i2 r2 j h2 hsucc
      have hlt : i2 < w.recs.length := (List.getElem?_eq_some_iff.mp h2).1
      refine ⟨r2, ?_, hsucc⟩
      rw [kinship_construct_other w o s rel i2 hlt]
      exact h2
  | meet o s h =>
    refine ⟨⟨?_, ?_⟩, ?_⟩
    · intro p ip hip
      rw [Acquaintance.construct_ledger] at hip
      unfold updateLedger at hip
      by_cases hpq : p = (o, s)
      · rw [if_pos hpq] at hip
        injection hip with hip
        subst hip
        refine ⟨_, Acquaintance.construct_new_rec env w o s none, ?_, ?_, rfl⟩ <;>
          simp [hpq]
      · rw [if_neg hpq] at hip
        obtain ⟨r2, hr2, h1, h2, h3⟩ := hL p ip hip
        have hlt : ip < w.recs.length := (List.getElem?_eq_some_iff.mp hr2).1
        refine ⟨r2, ?_, h1, h2, h3⟩
        rw [Acquaintance.construct_none_other env w o s ip hlt]
        exact hr2
    · intro i2 r2 j h2 hsucc
      have hlen2 : i2 < w.recs.length + 1 := by
        have h3 := (List.getElem?_eq_some_iff.mp h2).1
        rwa [Acquaintance.construct_length] at h3
      by_cases hi2 : i2 = w.recs.length
      · subst hi2
        rw [Acquaintance.construct_new_rec] at h2
        injection h2 with h2
        subst h2
        simp at hsucc
      · have hlt : i2 < w.recs.length := by omega
        have hold : w.recs[i2]? = some r2 := by
          rw [← Acquaintance.construct_none_other env w o s i2 hlt]; exact h2
        obtain ⟨rj, hrj, hprec⟩ := hC i2 r2 j hold hsucc
        have hjlt : j < w.recs.length := (List.getElem?_eq_some_iff.mp hrj).1
        refine ⟨rj, ?_, hprec⟩
        rw [Acquaintance.construct_none_other env w o s j hjlt]
        exact hrj
    · intro i2 r2 j h2 hsucc
      have hlt : i2 < w.recs.length := (List.getElem?_eq_some_iff.mp h2).1
      refine ⟨r2, ?_, hsucc⟩
      rw [Acquaintance.construct_none_other env w o s i2 hlt]
      exact h2
  | meetKin o s k rel r h hr hk =>
    obtain ⟨r0, hr0, ho0, hs0, hsn0⟩ := hL (o, s) k h
    rw [hr] at hr0
    injection hr0 with hr0
    subst hr0
    dsimp only at ho0 hs0
    refine ⟨⟨?_, ?_⟩, ?_⟩
    · intro p ip hip
      rw [Acquaintance.construct_ledger] at hip
      unfold updateLedger at hip
      by_cases hpq : p = (o, s)
      · rw [if_pos hpq] at hip
        injection hip with hip
        subst hip
        refine ⟨_, Acquaintance.construct_new_rec env w o s (some k), ?_, ?_, rfl⟩ <;>
          simp [hpq]
      · rw [if_neg hpq] at hip
        obtain ⟨r2, hr2, h1, h2, h3⟩ := hL p ip hip
        have hlt : ip < w.recs.length := (List.getElem?_eq_some_iff.mp hr2).1
        have hii : ip ≠ k := by
          intro he
          subst he
          rw [hr] at hr2
          injection hr2 with hr2
          subst hr2
          apply hpq
          rw [← ho0, ← hs0, h1, h2]
        refine ⟨r2, ?_, h1, h2, h3⟩
        rw [Acquaintance.construct_some_other env w o s k r hr ip hii hlt]
        exact hr2
    · intro i2 r2 j h2 hsucc
      have hlen2 : i2 < w.recs.length + 1 := by
        have h3 := (List.getElem?_eq_some_iff.mp h2).1
        rwa [Acquaintance.construct_length] at h3
      by_cases hi2 : i2 = w.recs.length
      · subst hi2
        rw [Acquaintance.construct_new_rec] at h2
        injection h2 with h2
        subst h2
        simp at hsucc
      · have hlt : i2 < w.recs.length := by omega
        by_cases hik : i2 = k
        · subst hik
          rw [Acquaintance.construct_some_pred env w o s i2 r hr] at h2
          injection h2 with h2
          subst h2
          have hj : w.recs.length = j := by
            have hsucc2 : ({ r with succeeded_by := some w.recs.length } : Rec).succeeded_by =
                some j := hsucc
            simpa using hsucc2
          subst hj
          exact ⟨_, Acquaintance.construct_new_rec env w o s (some i2), rfl⟩
        · have hold : w.recs[i2]? = some r2 := by
            rw [← Acquaintance.construct_some_other env w o s k r hr i2 hik hlt]
            exact h2
          obtain ⟨rj, hrj, hprec⟩ := hC i2 r2 j hold hsucc
          have hjlt : j < w.recs.length := (List.getElem?_eq_some_iff.mp hrj).1
          by_cases hjk : j = k
          · subst hjk
            rw [hr] at hrj
            injection hrj with hrj
            subst hrj
            exact ⟨_, Acquaintance.construct_some_pred env w o s j r hr, hprec⟩
          · refine ⟨rj, ?_, hprec⟩
            rw [Acquaintance.construct_some_other env w o s k r hr j hjk hjlt]
            exact hrj
    · intro i2 r2 j h2 hsucc
      have hlt : i2 < w.recs.length := (List.getElem?_eq_some_iff.mp h2).1
      by_cases hik : i2 = k
      · subst hik
        rw [hr] at h2
        injection h2 with h2
        subst h2
        rw [hsn0] at hsucc
        cases hsucc
      · refine ⟨r2, ?_, hsucc⟩
        rw [Acquaintance.construct_some_other env w o s k r hr i2 hik hlt]
        exact h2
  | progress o s i r h hr hnk =>
    obtain ⟨r0, hr0, ho0, hs0, hsn0⟩ := hL (o, s) i h
    rw [hr] at hr0
    injection hr0 with hr0
    subst hr0
    dsimp only at ho0 hs0
    cases hpl : r.payload with
    | kinship rel => exact absurd hpl (hnk rel)
    | acquaintance compat ci c si s2 =>
      have hdisp : progress_relationship env w i =
          Acquaintance.progress_relationship env w i := by
        simp only [progress_relationship, hr, hpl]
      rw [hdisp]
      set eff := env.config.function_to_determine_how_age_difference_reduces_charge_intensity
        (env.people r.owner).age (env.people r.subject).age with heff
      by_cases h1 : c + ci * eff > env.config.charge_threshold_friendship
      · rw [acquaintance_progress_eq_friendship env w i r compat ci c si s2 eff
          (c + ci * eff) (si * env.config.spark_decay_rate)
          (s2 + si * env.config.spark_decay_rate * eff) hr hpl heff rfl rfl rfl h1]
        exact ⟨transitionWorld_preserves_inv w i r _ _ _ hr hL hC,
          transitionWorld_succStable w i r _ _ _ _ _ hr hsn0⟩
      · by_cases h2 : c + ci * eff < env.config.charge_threshold_enmity
        · rw [acquaintance_progress_eq_enmity env w i r compat ci c si s2 eff
            (c + ci * eff) (si * env.config.spark_decay_rate)
            (s2 + si * env.config.spark_decay_rate * eff) hr hpl heff rfl rfl rfl h1 h2]
          exact ⟨transitionWorld_preserves_inv w i r _ _ _ hr hL hC,
            transitionWorld_succStable w i r _ _ _ _ _ hr hsn0⟩
        · rw [acquaintance_progress_eq_none env w i r compat ci c si s2 eff
            (c + ci * eff) (si * env.config.spark_decay_rate)
            (s2 + si * env.config.spark_decay_rate * eff) hr hpl heff rfl rfl rfl h1 h2]
          refine ⟨⟨?_, ?_⟩, ?_⟩
          · exact (ledgerInv_obs _ _).mpr (chargedWorld_preserves_inv w i r _ hr hL hC).1
          · exact (chainInv_obs _ _).mpr (chargedWorld_preserves_inv w i r _ hr hL hC).2
          · exact (succStable_obs _ _ _).mpr (chargedWorld_succStable w i r _ hr)
    | friendship ci c =>
      have hdisp : progress_relationship env w i =
          Friendship.progress_relationship env w i := by
        simp only [progress_relationship, hr, hpl]
      rw [hdisp]
      by_cases h1 : c + ci > env.config.charge_threshold_friendship
      · rw [friendship_progress_eq_friendship env w i r ci c hr hpl h1]
        exact ⟨transitionWorld_preserves_inv w i r _ _ _ hr hL hC,
          transitionWorld_succStable w i r _ _ _ _ _ hr hsn0⟩
      · by_cases h2 : c + ci < env.config.charge_threshold_enmity
        · rw [friendship_progress_eq_enmity env w i r ci c hr hpl h1 h2]
          exact ⟨transitionWorld_preserves_inv w i r _ _ _ hr hL hC,
            transitionWorld_succStable w i r _ _ _ _ _ hr hsn0⟩
        · rw [friendship_progress_eq_none env w i r ci c hr hpl h1 h2]
          exact ⟨chargedWorld_preserves_inv w i r _ hr hL hC,
            chargedWorld_succStable w i r _ hr⟩
    | enmity ci c =>
      have hdisp : progress_relationship env w i =
          Enmity.progress_relationship env w i := by
        simp only [progress_relationship, hr, hpl]
      rw [hdisp]
      by_cases h1 : c + ci > env.config.charge_threshold_friendship
      · rw [enmity_progress_eq_friendship env w i r ci c hr hpl h1]
        exact ⟨transitionWorld_preserves_inv w i r _ _ _ hr hL hC,
          transitionWorld_succStable w i r _ _ _ _ _ hr hsn0⟩
      · by_cases h2 : c + ci < env.config.charge_threshold_enmity
        · rw [enmity_progress_eq_enmity env w i r ci c hr hpl h1 h2]
          exact ⟨transitionWorld_preserves_inv w i r _ _ _ hr hL hC,
            transitionWorld_succStable w i r _ _ _ _ _ hr hsn0⟩
        · rw [enmity_progress_eq_none env w i r ci c hr hpl h1 h2]
          exact ⟨chargedWorld_preserves_inv w i r _ hr hL hC,
            chargedWorld_succStable w i r _ hr⟩

/-- Both invariants hold in every reachable world. -/
theorem reachable_inv (env : Env) (w : World) (h : Reachable env w) :
    ledgerInv w ∧ chainInv w := by
  induction h with
  | init =>
    constructor
    · intro p ip hip
      simp [World.empty] at hip
    · intro i2 r2 j h2 hsucc
      simp [World.empty] at h2
  | step wp w2p hw hs ih =>
    exact (step_preserves env wp w2p hs ih.1 ih.2).1

/-- C2: Chain integrity — in every reachable world, a record whose
`succeeded_by` is a record S has `S.preceded_by` pointing back at it;
and no driver operation ever rewrites an already-set `succeeded_by`, so
a successor is assigned to any given record at most once across its
lifetime. -/
theorem C2_chain_integrity (env : Env) (w w2 : World)
    (hw : Reachable env w) (hs : Step env w w2) :
    chainInv w ∧ succStable w w2 :=
  ⟨(reachable_inv env w hw).2,
   (step_preserves env w w2 hs (reachable_inv env w hw).1
     (reachable_inv env w hw).2).2⟩

/-- Witness for C2 at a concrete input: the two-step reachable history
Kinship(0,1) then Acquaintance(0,1) with the kinship as predecessor. -/
theorem C2_chain_integrity_witness : chainInv worldK ∧ succStable worldK worldKA :=
  C2_chain_integrity env0 worldK worldKA
    (Reachable.step World.empty worldK Reachable.init
      (Step.kinship World.empty 0 1 "mother" rfl))
    (Step.meetKin worldK 0 1 0 "mother" _ rfl rfl rfl)
